import Mathlib

/-!
Verification development for the crabmancake asset-resolution and buffer-cache
engine.  The definitions below are a shallow embedding of the Rust sources:

* `src/src/error.rs`                         — error taxonomy (`CmcError`);
* `src/src/assets/config.rs`                 — `ShaderType`, `AssetType`, `Config`;
* `src/src/assets/asset.rs`                  — `AssetState`, `Asset`;
* `src/src/assets/asset_cache.rs`            — the fetch pipeline `fetch_asset`;
* `src/src/graphics/renderer/renderable.rs`  — the resolver (`Renderable`,
  `BufferCache`, `build_buffer_id`, `update_renderables_from_asset`).

Modelling conventions: byte vectors are `List Nat`; Rust `HashMap`s that are
only accessed by key are association lists; `Rc<T>` is `T` (shared immutable
data); early `return`/`?` in functions mutating `&mut self` is explicit state
passing that yields the partially mutated state together with the error; a
Rust panic is the distinguished outcome `RErr.panic`, which (like `?`) aborts
the computation in which it occurs.  The external glTF parser and the external
image decoder are oracles (`parse` and `Decoder` parameters); the parsed
document is the read-only view the resolver consumes (`Gltf` below).
-/

namespace Cmc

/-- Byte vectors (`Vec<u8>`); a byte is modelled as a `Nat`. -/
abbrev Bytes := List Nat

/-- Error taxonomy from `src/src/error.rs`.  The variants not reachable from the
resolver or the fetch pipeline (shader, JsValue, element errors) are omitted.
`Gltf` and `Image` carry the foreign error as its message string.  The `NotYet`
variant is referenced by `renderable.rs` (its declaration sits in a different
snapshot of `error.rs` than the one under `src/`); the spec describes it as the
transient "dependency not currently available" signal. -/
inductive CmcError
  | MissingVal (msg : String)
  | ConversionFail (msg : String)
  | NotYet
  | Gltf (msg : String)
  | Image (msg : String)
  deriving Repr, DecidableEq

/-- Constructor helper `CmcError::missing_val`. -/
def CmcError.missing_val (msg : String) : CmcError := CmcError.MissingVal msg

/-- Outcome of running a piece of Rust code: either a `CmcError` propagated by
`?`, or a panic (which also aborts whatever computation it occurs in). -/
inductive RErr
  | cmc (e : CmcError)
  | panic (msg : String)
  deriving Repr, DecidableEq

/-- Shader family selector from `src/src/assets/config.rs`. -/
inductive ShaderType
  | NoRender
  | Basic
  deriving Repr, DecidableEq

/-- Asset kind from `src/src/assets/config.rs`. -/
inductive AssetType
  | GltfModel (gl_root : String) ( prompt_files : List String) (deferrable_files : List String)
  | GlbModel (gl_root : String)
  deriving Repr, DecidableEq

/-- Manifest record from `src/src/assets/config.rs`. -/
structure Config where
  name : String
  asset_type : AssetType
  render_type : ShaderType
  deriving Repr, DecidableEq

/-- The prompt file list: the scene root plus the declared prompt files
(`Config::get_prompt_files`). -/
def Config.get_prompt_files (c : Config) : List String :=
  match c.asset_type with
  | AssetType.GltfModel gl_root prompt_files _ => gl_root :: prompt_files
  | AssetType.GlbModel gl_root => [gl_root]

/-- The deferrable file list (`Config::get_deferrable_files`). -/
def Config.get_deferrable_files (c : Config) : List String :=
  match c.asset_type with
  | AssetType.GltfModel _ _ deferrable_files => deferrable_files
  | AssetType.GlbModel _ => []

/-- Completion flag from `src/src/assets/asset.rs`. -/
inductive AssetState
  | Incomplete
  | Complete
  deriving Repr, DecidableEq

/-- Cache-resident asset record from `src/src/assets/asset.rs`.  The file map
is an association list keyed by file name. -/
structure Asset where
  name : String
  config : Config
  state : AssetState
  files : List (String × Bytes)
  deriving Repr, DecidableEq

/-- Constructor `Asset::new`: a fresh `Incomplete` asset with no files. -/
def Asset.new (name : String) (config : Config) : Asset :=
  { name := name, config := config, state := AssetState.Incomplete, files := [] }

/-- Completion test `Asset::is_complete`. -/
def Asset.is_complete (a : Asset) : Bool := a.state == AssetState.Complete

/-- Transition `Asset::set_complete`. -/
def Asset.set_complete (a : Asset) : Asset := { a with state := AssetState.Complete }

/-- Keyed insertion into an association list, overwriting in place when the key
is already present (the behaviour of `HashMap::insert`). -/
def listInsert {α : Type} (l : List (String × α)) (k : String) (v : α) : List (String × α) :=
  match l with
  | [] => [(k, v)]
  | (k', v') :: rest => if k' == k then (k, v) :: rest else (k', v') :: listInsert rest k v

/-- File attachment `Asset::add_files`: each pair is inserted in order, a
re-insert under an existing name overwrites (and is logged, not an error). -/
def Asset.add_files (a : Asset) (file_list : List (String × Bytes)) : Asset :=
  { a with files := file_list.foldl (fun m p => listInsert m p.1 p.2) a.files }

/-- Point read `Asset::get_file`. -/
def Asset.get_file (a : Asset) (name : String) : Option Bytes :=
  (a.files.find? (fun p => p.1 == name)).map Prod.snd

/-- Point read `Asset::get_config`. -/
def Asset.get_config (a : Asset) : Config := a.config

/-- Decimal rendering of a natural number, the formatting applied by
`format!("{}", n)` to a `usize` in the buffer-id and renderable-id strings. -/
def natToDec (n : Nat) : String := Nat.repr n

/-- Buffer-data source of a glTF buffer (`gltf::buffer::Source`): the embedded
binary blob or a named external file. -/
inductive GBufSource
  | Bin
  | Uri (path : String)
  deriving Repr, DecidableEq

/-- A glTF buffer descriptor (index in the document plus its data source). -/
structure GBuffer where
  index : Nat
  source : GBufSource
  deriving Repr, DecidableEq

/-- A glTF buffer view: a sub-range of a buffer, with an optional stride and an
optional name. -/
structure GView where
  buffer : GBuffer
  offset : Nat
  length : Nat
  stride : Option Nat
  name : Option String
  deriving Repr, DecidableEq

/-- Data source of a glTF image (`gltf::image::Source`): bytes carved out of a
buffer view (with a required MIME type) or a named external file (with an
optional MIME type). -/
inductive GImgSource
  | View (view : GView) (mime_type : String)
  | Uri (uri : String) (mime_type : Option String)
  deriving Repr, DecidableEq

/-- A glTF image descriptor. -/
structure GImage where
  source : GImgSource
  deriving Repr, DecidableEq

/-- A glTF sampler; the wrap modes are recorded as their GL enum codes (the
values of `wrap_s().as_gl_enum()` / `wrap_t().as_gl_enum()`). -/
structure GSampler where
  wrap_s : Nat
  wrap_t : Nat
  deriving Repr, DecidableEq

/-- A glTF texture: its source image and its sampler. -/
structure GTexture where
  source : GImage
  sampler : GSampler
  deriving Repr, DecidableEq

/-- The part of a glTF material the resolver reads: the base-color texture of
`pbr_metallic_roughness`, when present. -/
structure GMaterial where
  base_color_texture : Option GTexture
  deriving Repr, DecidableEq

/-- A glTF accessor; `data_type` is the GL enum code of
`data_type().as_gl_enum()` and `multiplicity` the value of
`dimensions().multiplicity()`. -/
structure GAccessor where
  view : Option GView
  count : Nat
  data_type : Nat
  multiplicity : Nat
  normalized : Bool
  deriving Repr, DecidableEq

/-- A glTF semantic (`gltf::Semantic`). -/
inductive GSemantic
  | Positions
  | Normals
  | Tangents
  | Colors (index : Nat)
  | TexCoords (index : Nat)
  | Joints (index : Nat)
  | Weights (index : Nat)
  deriving Repr, DecidableEq

/-- A glTF mesh primitive: its attribute list (iterated in order), its optional
index accessor and its material. -/
structure GPrimitive where
  attributes : List (GSemantic × GAccessor)
  indices : Option GAccessor
  material : GMaterial
  deriving Repr, DecidableEq

/-- A glTF mesh: its primitive list. -/
structure GMesh where
  primitives : List GPrimitive
  deriving Repr, DecidableEq

/-- A glTF scene node: its optional name and optional mesh.  A node's index is
its position in the document's node list. -/
structure GNode where
  name : Option String
  mesh : Option GMesh
  deriving Repr, DecidableEq

/-- The read-only view of a parsed glTF document that the resolver consumes:
node, buffer and image iteration plus the optional embedded blob. -/
structure Gltf where
  nodes : List GNode
  buffers : List GBuffer
  images : List GImage
  blob : Option Bytes
  deriving Repr, DecidableEq

/-- Buffer identifier strings (`pub type BufferId = String`). -/
abbrev BufferId := String

/-- Supported vertex-attribute keys from `renderable.rs` (`enum Attribute`). -/
inductive Attribute
  | Positions
  | TexCoords (index : Nat)
  | Normals
  | Unhandled
  | Indices
  deriving Repr, DecidableEq

/-- Conversion `From<&Semantic> for Attribute`. -/
def Attribute.ofSemantic (semantic : GSemantic) : Attribute :=
  match semantic with
  | GSemantic.Positions => Attribute.Positions
  | GSemantic.Normals => Attribute.Normals
  | GSemantic.Tangents => Attribute.Unhandled
  | GSemantic.Colors _ => Attribute.Unhandled
  | GSemantic.TexCoords index => Attribute.TexCoords index
  | GSemantic.Joints _ => Attribute.Unhandled
  | GSemantic.Weights _ => Attribute.Unhandled

/-- Support test `Attribute::is_supported`. -/
def Attribute.is_supported (a : Attribute) : Bool := a != Attribute.Unhandled

/-- Logical source of a decoded buffer (`enum BufferSource` in
`renderable.rs`): a glTF buffer, a glTF image, or the synthetic per-node index
buffer. -/
inductive BufferSource
  | Binary (s : GBufSource)
  | Image (s : GImgSource)
  | Index (node_index : Nat)
  deriving Repr, DecidableEq

/-- Identifier scheme `build_buffer_id`: asset name, three-letter kind code,
then a discriminator (the file path, the buffer-view name or `"unk"`, or the
node index). -/
def build_buffer_id (src : BufferSource) (asset_name : String) : BufferId :=
  match src with
  | BufferSource.Binary GBufSource.Bin =>
      asset_name ++ "bbb"
  | BufferSource.Binary (GBufSource.Uri path) =>
      asset_name ++ "bbu" ++ path
  | BufferSource.Image (GImgSource.View view _) =>
      asset_name ++ "biv" ++ view.name.getD "unk"
  | BufferSource.Image (GImgSource.Uri uri _) =>
      asset_name ++ "biu" ++ uri
  | BufferSource.Index node_index =>
      asset_name ++ "ind" ++ natToDec node_index

/-- Decoded raw binary buffer (`struct BinBuffer`); `Rc` sharing is modelled by
the value itself. -/
structure BinBuffer where
  id : BufferId
  data : Bytes
  deriving Repr, DecidableEq

/-- Decoded RGBA8 image (`struct ImageBuffer`). -/
structure ImageBuffer where
  id : BufferId
  width : Nat
  height : Nat
  data : Bytes
  deriving Repr, DecidableEq

/-- Base-color texture progress (`enum TextureStatus`). -/
inductive TextureStatus
  | Pending (target : BufferId)
  | Available (img : ImageBuffer)
  | Unused
  deriving Repr, DecidableEq

/-- Base-color texture record (`struct Texture`); the wrap modes are GL enum
codes captured from the sampler. -/
structure Texture where
  status : TextureStatus
  wrap_s : Nat
  wrap_t : Nat
  deriving Repr, DecidableEq

/-- Per-attribute accessor record (`struct Accessor`).  The numeric metadata
fields are the non-negative values the source casts to `i32`; no arithmetic is
performed on them, so they are kept as `Nat`.  The source's field name
`attribute` is a Lean keyword, hence `attrib`. -/
structure Accessor where
  attrib : Attribute
  buffer : Option BinBuffer
  buffer_id : BufferId
  data_type : Nat
  stride : Nat
  count : Nat
  num_items : Nat
  normalized : Bool
  offset : Nat
  deriving Repr, DecidableEq

/-- Constructor `Accessor::new`.  The source unwraps `accessor.view()`, a panic
when the accessor has no buffer view, so the result is fallible here. -/
def Accessor.new (attrib : Attribute) (accessor : GAccessor) (asset_name : String) :
    Except RErr Accessor :=
  match accessor.view with
  | none => Except.error (RErr.panic ("called unwrap on a None value"))
  | some view =>
      Except.ok
        { attrib := attrib
          buffer := none
          buffer_id := build_buffer_id (BufferSource.Binary view.buffer.source) asset_name
          count := accessor.count
          data_type := accessor.data_type
          stride := view.stride.getD 0
          num_items := accessor.multiplicity
          normalized := accessor.normalized
          offset := view.offset }

/-- Renderable identity (`struct RenderableId`): the id string
`{asset_name}{node_index}_{node_name_or_unk}` plus the node index. -/
structure RenderableId where
  name : String
  node_index : Nat
  deriving Repr, DecidableEq

/-- Constructor `RenderableId::new`, taking the node together with its index in
the document's node list (`node.index()`). -/
def RenderableId.new (asset_name : String) (node_index : Nat) (node : GNode) : RenderableId :=
  { name := asset_name ++ natToDec node_index ++ "_" ++ node.name.getD "unk"
    node_index := node_index }

/-- The per-node render record (`struct Renderable`).  The accessor map is an
association list keyed by `Attribute`; the base transform is a 4x4 matrix of
`f32` values.  The code only ever stores the literal constant `0.0` in the
matrix and performs no arithmetic on it, so its entries are modelled exactly
as rationals. -/
structure Renderable where
  parent_asset : String
  id : RenderableId
  base_color : Option Texture
  accessors : List (Attribute × Accessor)
  indices : Option Accessor
  base_transform : List (List Rat)
  render_target : ShaderType
  deriving Repr, DecidableEq

/-- Constructor `Renderable::new`: empty maps, no index accessor, no base-color
texture, the all-zero base transform, and the render target copied from the
asset's config. -/
def Renderable.new (asset : Asset) (id : RenderableId) : Renderable :=
  { parent_asset := asset.name
    id := id
    base_color := none
    accessors := []
    indices := none
    base_transform := List.replicate 4 (List.replicate 4 (0 : Rat))
    render_target := asset.get_config.render_type }

/-- Keyed lookup in the accessor association list (`HashMap` read). -/
def lookupA (l : List (Attribute × Accessor)) (k : Attribute) : Option Accessor :=
  (l.find? (fun p => p.1 == k)).map Prod.snd

/-- Keyed insertion into the accessor association list, overwriting in place
(`HashMap::insert` / the in-place mutation through `entry().or_insert()`). -/
def insertA (l : List (Attribute × Accessor)) (k : Attribute) (v : Accessor) :
    List (Attribute × Accessor) :=
  match l with
  | [] => [(k, v)]
  | (k', v') :: rest => if k' == k then (k, v) :: rest else (k', v') :: insertA rest k v

/-- The per-pass memoization store (`struct BufferCache`): two association
lists, decoded binaries and decoded images, both keyed by buffer id.  The
source's `HashMap::iter().next()` is the head of the list. -/
structure BufferCache where
  bin : List (BufferId × BinBuffer)
  image : List (BufferId × ImageBuffer)
  deriving Repr, DecidableEq

/-- The empty cache a resolution pass starts from. -/
def BufferCache.empty : BufferCache := { bin := [], image := [] }

/-- Cache read `BufferCache::get_image`. -/
def BufferCache.get_image (c : BufferCache) (id : BufferId) : Option ImageBuffer :=
  (c.image.find? (fun p => p.1 == id)).map Prod.snd

/-- Cache read `BufferCache::get_bin`. -/
def BufferCache.get_bin (c : BufferCache) (id : BufferId) : Option BinBuffer :=
  (c.bin.find? (fun p => p.1 == id)).map Prod.snd

/-- Cache write `BufferCache::add_image` (overwrite-and-warn on collision). -/
def BufferCache.add_image (c : BufferCache) (id : BufferId) (img : ImageBuffer) : BufferCache :=
  { c with image := listInsert c.image id img }

/-- Cache write `BufferCache::add_bin` (overwrite-and-warn on collision). -/
def BufferCache.add_bin (c : BufferCache) (id : BufferId) (bin : BinBuffer) : BufferCache :=
  { c with bin := listInsert c.bin id bin }

/-- Image formats the resolver selects from the MIME type
(`image::ImageFormat::{Jpeg, Png}`). -/
inductive ImgFormat
  | Jpeg
  | Png
  deriving Repr, DecidableEq

/-- External image decoder oracle, standing for
`image::load_from_memory_with_format` followed by `into_rgba8()`: it yields
the dimensions and raw RGBA8 bytes, or the library's error message. -/
abbrev Decoder := ImgFormat → Bytes → Except String (Nat × Nat × Bytes)

/-- Zero-padding of the embedded blob to a 4-byte boundary (the `while data.len
() % 4 != 0 { data.push(0) }` loop). -/
def pad4 (data : Bytes) : Bytes :=
  data ++ List.replicate ((4 - data.length % 4) % 4) 0

/-- Buffer decode-and-memoize `BufferCache::lookup_bin_from_asset`: locate the
buffer whose id matches, then clone-and-pad the embedded blob or read the named
file from the asset (`NotYet` if the file is absent); successes are cached.
The first component is the returned value, the second the cache afterwards. -/
def BufferCache.lookup_bin_from_asset (c : BufferCache) (id : BufferId) (gltf : Gltf)
    (asset : Asset) : Except RErr BinBuffer × BufferCache :=
  match gltf.buffers.find? (fun b =>
      id == build_buffer_id (BufferSource.Binary b.source) asset.name) with
  | none => (Except.error (RErr.cmc (CmcError.missing_val ("BinaryBuffer not found in gltf!"))), c)
  | some buffer =>
      match buffer.source with
      | GBufSource.Bin =>
          match gltf.blob with
          | none => (Except.error (RErr.cmc (CmcError.missing_val ("Missing gltf blob!"))), c)
          | some blob =>
              let bin : BinBuffer := { id := id, data := pad4 blob }
              (Except.ok bin, c.add_bin id bin)
      | GBufSource.Uri file_name =>
          match asset.get_file file_name with
          | none => (Except.error (RErr.cmc CmcError.NotYet), c)
          | some file =>
              let bin : BinBuffer := { id := id, data := file }
              (Except.ok bin, c.add_bin id bin)

/-- Raw-byte acquisition inside `lookup_img_from_asset` (the `let (raw_data,
mime) = match gltf_image.source()` block, renderable.rs lines 186 to 201): a
view-backed image takes the FIRST entry of the binary cache and requires its
key to equal the image's own id before slicing it; a uri image reads the named
file (`NotYet` if absent).  Rust's slice indexing panics when the view range
exceeds the buffer, modelled by the explicit bound check. -/
def imgRawData (c : BufferCache) (asset : Asset) (src : GImgSource) :
    Except RErr (Bytes × Option String) :=
  match src with
  | GImgSource.View view mime_type =>
      match c.bin.head? with
      | none => Except.error (RErr.cmc (CmcError.missing_val
          ("No binaries in cache for binary image source!")))
      | some (bid, bin) =>
          if bid != build_buffer_id (BufferSource.Image (GImgSource.View view mime_type))
              asset.name then
            Except.error (RErr.cmc (CmcError.missing_val
              ("Binary source buffer doesnt match!")))
          else if view.offset + view.length ≤ bin.data.length then
            Except.ok ((bin.data.drop view.offset).take view.length, some mime_type)
          else
            Except.error (RErr.panic ("slice index out of range"))
  | GImgSource.Uri uri mime_type =>
      match asset.get_file uri with
      | none => Except.error (RErr.cmc CmcError.NotYet)
      | some file => Except.ok (file, mime_type)

/-- Format selection from the MIME type (renderable.rs lines 203 to 207):
`image/jpeg` and `image/png` are accepted, anything else — including an absent
MIME type — panics with `Unknown image format!`. -/
def mimeFormat (mime : Option String) : Except RErr ImgFormat :=
  match mime with
  | some "image/jpeg" => Except.ok ImgFormat.Jpeg
  | some "image/png" => Except.ok ImgFormat.Png
  | _ => Except.error (RErr.panic ("Unknown image format!"))

/-- Image decode-and-memoize `BufferCache::lookup_img_from_asset` (renderable.rs
lines 181 to 214): locate the image whose id matches, acquire the raw bytes
(`imgRawData`), select the format from the MIME type (`mimeFormat`), decode
through the external decoder, and cache the result. -/
def BufferCache.lookup_img_from_asset (c : BufferCache) (id : BufferId) (gltf : Gltf)
    (asset : Asset) (decoder : Decoder) : Except RErr ImageBuffer × BufferCache :=
  match gltf.images.find? (fun i =>
      id == build_buffer_id (BufferSource.Image i.source) asset.name) with
  | none => (Except.error (RErr.cmc (CmcError.missing_val ("ImageBuffer not found in gltf!"))), c)
  | some gltf_image =>
      match imgRawData c asset gltf_image.source with
      | Except.error e => (Except.error e, c)
      | Except.ok (raw_data, mime) =>
          match mimeFormat mime with
          | Except.error e => (Except.error e, c)
          | Except.ok fmt =>
              match decoder fmt raw_data with
              | Except.error msg => (Except.error (RErr.cmc (CmcError.Image msg)), c)
              | Except.ok (width, height, data) =>
                  let img : ImageBuffer :=
                    { id := id, width := width, height := height, data := data }
                  (Except.ok img, c.add_image id img)

/-- Attribute-buffer resolution, the match on `(&acc.buffer, cache.get_bin(..))`
in `Renderable::update` (renderable.rs lines 72 to 86): an already populated
buffer is left alone; a cache hit fills it; otherwise `lookup_bin_from_asset`
runs, a `NotYet` is promoted to a fatal missing-component error when the asset
is complete and swallowed otherwise, and any other error propagates. -/
def resolveAccBuffer (gltf : Gltf) (asset : Asset) (c : BufferCache) (acc : Accessor) :
    Accessor × BufferCache × Except RErr Unit :=
  match acc.buffer, c.get_bin acc.buffer_id with
  | some _, _ => (acc, c, Except.ok ())
  | none, some b => ({ acc with buffer := some b }, c, Except.ok ())
  | none, none =>
      match c.lookup_bin_from_asset acc.buffer_id gltf asset with
      | (Except.ok val, c') => ({ acc with buffer := some val }, c', Except.ok ())
      | (Except.error (RErr.cmc CmcError.NotYet), c') =>
          if asset.is_complete then
            (acc, c', Except.error (RErr.cmc
              (CmcError.missing_val ("asset is complete but missing component"))))
          else
            (acc, c', Except.ok ())
      | (Except.error e, c') => (acc, c', Except.error e)

/-- One iteration of the attribute loop of `Renderable::update` (lines 66 to
87): unsupported semantics are skipped; `Accessor::new` is evaluated eagerly
(it is the argument of `or_insert`, so its panic fires even when the entry
already exists); the entry is created when absent; then the buffer is
resolved. -/
def updateAttrsStep (gltf : Gltf) (asset : Asset) (accs : List (Attribute × Accessor))
    (c : BufferCache) (sem : GSemantic) (gacc : GAccessor) :
    List (Attribute × Accessor) × BufferCache × Except RErr Unit :=
  let attr := Attribute.ofSemantic sem
  if attr.is_supported then
    match Accessor.new attr gacc asset.name with
    | Except.error e => (accs, c, Except.error e)
    | Except.ok newAcc =>
        let acc := match lookupA accs attr with
          | some existing => existing
          | none => newAcc
        let resolved := resolveAccBuffer gltf asset c acc
        (insertA accs attr resolved.1, resolved.2.1, resolved.2.2)
  else
    (accs, c, Except.ok ())

/-- The attribute loop of `Renderable::update` over `prim.attributes()`; the
first error aborts the loop, keeping the entries mutated so far. -/
def updateAttrs (gltf : Gltf) (asset : Asset) :
    List (GSemantic × GAccessor) → List (Attribute × Accessor) → BufferCache →
    List (Attribute × Accessor) × BufferCache × Except RErr Unit
  | [], accs, c => (accs, c, Except.ok ())
  | (sem, gacc) :: rest, accs, c =>
      match updateAttrsStep gltf asset accs c sem gacc with
      | (accs', c', Except.ok _) => updateAttrs gltf asset rest accs' c'
      | (accs', c', Except.error e) => (accs', c', Except.error e)

/-- Index-accessor creation, the `if let None = self.indices` block of
`Renderable::update` (lines 88 to 95): when the field is empty, build an
accessor from `prim.indices()` and override its buffer id with the synthetic
per-node index id. -/
def indicesInit (prim : GPrimitive) (node_index : Nat) (asset : Asset)
    (indices : Option Accessor) : Option Accessor × Except RErr Unit :=
  match indices with
  | some i => (some i, Except.ok ())
  | none =>
      match prim.indices with
      | none => (none, Except.error (RErr.cmc (CmcError.missing_val ("Prim missing indices"))))
      | some accr =>
          match Accessor.new Attribute.Indices accr asset.name with
          | Except.error e => (none, Except.error e)
          | Except.ok a =>
              (some { a with
                  buffer_id := build_buffer_id (BufferSource.Index node_index) asset.name },
                Except.ok ())

/-- Index-buffer population, the `self.indices.take()` block of
`Renderable::update` (lines 96 to 115): a populated buffer is kept; otherwise
the index bytes are carved out of the source buffer IF the cache already holds
it (`get_bin` only; no asset lookup and no completeness promotion here — a
miss just logs and leaves the buffer empty).  An error inside the block leaves
the field taken, i.e. `none`. -/
def indicesPopulate (asset : Asset) (c : BufferCache) (prim : GPrimitive)
    (indices : Option Accessor) : Option Accessor × Except RErr Unit :=
  match indices with
  | none => (none, Except.ok ())
  | some ind =>
      if ind.buffer.isSome then
        (some ind, Except.ok ())
      else
        match prim.indices with
        | none => (none, Except.error (RErr.cmc (CmcError.missing_val ("Prim missing indices"))))
        | some accr =>
            match accr.view with
            | none => (none, Except.error (RErr.cmc (CmcError.missing_val ("Buffer view missing"))))
            | some view =>
                let source_buffer_id :=
                  build_buffer_id (BufferSource.Binary view.buffer.source) asset.name
                match c.get_bin source_buffer_id with
                | some bin =>
                    if view.offset + view.length ≤ bin.data.length then
                      let data := (bin.data.drop view.offset).take view.length
                      (some { ind with buffer := some { id := ind.buffer_id, data := data } },
                        Except.ok ())
                    else
                      (none, Except.error (RErr.panic ("slice index out of range")))
                | none =>
                    (some { ind with buffer := none }, Except.ok ())

/-- Base-color creation, the `if let None = self.base_color` block of
`Renderable::update` (lines 119 to 130): record a `Pending` status carrying
the image's buffer id, plus the sampler wrap modes. -/
def baseColorInit (prim : GPrimitive) (asset : Asset) (base_color : Option Texture) :
    Option Texture × Except RErr Unit :=
  match base_color with
  | some t => (some t, Except.ok ())
  | none =>
      match prim.material.base_color_texture with
      | none =>
          (none, Except.error (RErr.cmc (CmcError.missing_val ("No texture info for base color"))))
      | some texture =>
          let target_id := build_buffer_id (BufferSource.Image texture.source.source) asset.name
          (some { status := TextureStatus.Pending target_id
                  wrap_s := texture.sampler.wrap_s
                  wrap_t := texture.sampler.wrap_t },
            Except.ok ())

/-- Base-color resolution, the `self.base_color.take()` block of
`Renderable::update` (lines 131 to 166): `Available` and `Unused` are kept; a
`Pending` tries the image cache, then `lookup_img_from_asset`, promoting a
`NotYet` to a fatal missing-component error when the asset is complete and
keeping `Pending` otherwise.  An error inside the block leaves the field
taken, i.e. `none`. -/
def baseColorResolve (gltf : Gltf) (asset : Asset) (c : BufferCache) (decoder : Decoder)
    (id_name : String) (base_color : Option Texture) :
    Option Texture × BufferCache × Except RErr Unit :=
  match base_color with
  | none => (none, c, Except.ok ())
  | some bc =>
      match bc.status with
      | TextureStatus.Available buf =>
          (some { bc with status := TextureStatus.Available buf }, c, Except.ok ())
      | TextureStatus.Unused =>
          (some { bc with status := TextureStatus.Unused }, c, Except.ok ())
      | TextureStatus.Pending target =>
          match c.get_image target with
          | some img =>
              (some { bc with status := TextureStatus.Available img }, c, Except.ok ())
          | none =>
              match c.lookup_img_from_asset target gltf asset decoder with
              | (Except.ok img, c') =>
                  (some { bc with status := TextureStatus.Available img }, c', Except.ok ())
              | (Except.error (RErr.cmc CmcError.NotYet), c') =>
                  if asset.is_complete then
                    (none, c', Except.error (RErr.cmc (CmcError.missing_val
                      (id_name ++ ": asset is complete but missing component"))))
                  else
                    (some { bc with status := TextureStatus.Pending target }, c', Except.ok ())
              | (Except.error e, c') => (none, c', Except.error e)

/-- One resolution attempt for one renderable, `Renderable::update` (lines 53
to 168): locate the node (by the stored node index), its mesh and its first
primitive (all of which panic when absent), then run the attribute loop, the
two index steps and the two base-color steps in order, each early error
returning the partially mutated record together with the cache as mutated so
far. -/
def Renderable.update (self : Renderable) (gltf : Gltf) (asset : Asset) (cache : BufferCache)
    (decoder : Decoder) : Renderable × BufferCache × Except RErr Unit :=
  match gltf.nodes.get? self.id.node_index with
  | none => (self, cache, Except.error (RErr.panic ("Failed to find node index")))
  | some node =>
      match node.mesh with
      | none => (self, cache, Except.error (RErr.panic ("No mesh for node!")))
      | some mesh =>
          match mesh.primitives.head? with
          | none => (self, cache, Except.error (RErr.panic ("called unwrap on a None value")))
          | some prim =>
              let (accs, c1, res1) := updateAttrs gltf asset prim.attributes self.accessors cache
              let self1 := { self with accessors := accs }
              match res1 with
              | Except.error e => (self1, c1, Except.error e)
              | Except.ok _ =>
                  let (ind1, res2) := indicesInit prim self.id.node_index asset self1.indices
                  let self2 := { self1 with indices := ind1 }
                  match res2 with
                  | Except.error e => (self2, c1, Except.error e)
                  | Except.ok _ =>
                      let (ind2, res3) := indicesPopulate asset c1 prim self2.indices
                      let self3 := { self2 with indices := ind2 }
                      match res3 with
                      | Except.error e => (self3, c1, Except.error e)
                      | Except.ok _ =>
                          let (bc1, res4) := baseColorInit prim asset self3.base_color
                          let self4 := { self3 with base_color := bc1 }
                          match res4 with
                          | Except.error e => (self4, c1, Except.error e)
                          | Except.ok _ =>
                              let (bc2, c2, res5) :=
                                baseColorResolve gltf asset c1 decoder self.id.name
                                  self4.base_color
                              ({ self4 with base_color := bc2 }, c2, res5)

/-- The renderable registry: a stable-index arena (`generational_arena::Arena`).
No removals occur in the modelled code, so an index is a plain counter value;
iteration is in index order. -/
structure Arena where
  next : Nat
  items : List (Nat × Renderable)
  deriving Repr, DecidableEq

/-- Arena insertion: the new entry receives the next free index. -/
def Arena.insert (a : Arena) (r : Renderable) : Arena :=
  { next := a.next + 1, items := a.items ++ [(a.next, r)] }

/-- The insertion loop of `update_renderables_from_asset` (lines 270 to 272). -/
def insertNewRenderables (a : Arena) (rs : List Renderable) : Arena :=
  rs.foldl Arena.insert a

/-- The update loop of `update_renderables_from_asset` (lines 274 to 277):
renderables whose `parent_asset` matches are updated in order, sharing one
buffer cache; the `?` on `renderable.update(..)` propagates the first error,
aborting the loop and leaving the remaining entries untouched. -/
def updateAll (gltf : Gltf) (asset : Asset) (decoder : Decoder) :
    List (Nat × Renderable) → BufferCache →
    List (Nat × Renderable) × BufferCache × Except RErr Unit
  | [], c => ([], c, Except.ok ())
  | (i, r) :: rest, c =>
      if r.parent_asset == asset.name then
        match r.update gltf asset c decoder with
        | (r', c', Except.error e) => ((i, r') :: rest, c', Except.error e)
        | (r', c', Except.ok _) =>
            let (rest', c'', res') := updateAll gltf asset decoder rest c'
            ((i, r') :: rest', c'', res')
      else
        let (rest', c', res') := updateAll gltf asset decoder rest c
        ((i, r) :: rest', c', res')

/-- Document acquisition `get_gltf` (lines 286 to 298): read the scene root
file named by the config out of the asset and hand it to the external parser
oracle. -/
def get_gltf (parse : Bytes → Except RErr Gltf) (asset : Asset) : Except RErr Gltf :=
  let gl_root := match asset.get_config.asset_type with
    | AssetType.GltfModel gl_root _ _ => gl_root
    | AssetType.GlbModel gl_root => gl_root
  match asset.get_file gl_root with
  | none => Except.error (RErr.cmc (CmcError.missing_val ("No gl root file in asset!")))
  | some file => parse file

/-- The renderable ids of every node of the document (the first loop of
`update_renderables_from_asset`, lines 261 to 263 — all nodes, whether or not
they carry a mesh). -/
def renderableIdsOf (asset : Asset) (gltf : Gltf) : List RenderableId :=
  gltf.nodes.enum.map (fun p => RenderableId.new asset.name p.1 p.2)

/-- The ids that receive a fresh renderable in one pass: every node id whose
name matches no existing entry's id name (the filter of
`update_renderables_from_asset`, lines 264 to 266 — matched by id name alone,
not by `parent_asset`). -/
def newIdsOf (asset : Asset) (gltf : Gltf) (renderables : Arena) : List RenderableId :=
  (renderableIdsOf asset gltf).filter (fun n =>
    (renderables.items.find? (fun r => r.2.id.name == n.name)).isNone)

/-- One resolution pass, `update_renderables_from_asset` (lines 258 to 284):
parse the document, insert a fresh renderable for every node id not already
present (matched against existing entries by id name alone), then update every
renderable of this asset sharing a fresh buffer cache, and finally return the
indices of this asset's entries.  An error mid-loop leaves the registry with
the partial updates applied. -/
def update_renderables_from_asset (parse : Bytes → Except RErr Gltf) (decoder : Decoder)
    (asset : Asset) (renderables : Arena) : Arena × Except RErr (List Nat) :=
  match get_gltf parse asset with
  | Except.error e => (renderables, Except.error e)
  | Except.ok gltf =>
      let new_renderables := (newIdsOf asset gltf renderables).map
          (fun n => Renderable.new asset n)
      let arena1 := insertNewRenderables renderables new_renderables
      let (items', _, res) := updateAll gltf asset decoder arena1.items BufferCache.empty
      let arena2 : Arena := { arena1 with items := items' }
      match res with
      | Except.error e => (arena2, Except.error e)
      | Except.ok _ =>
          (arena2, Except.ok
            ((arena2.items.filter (fun r => r.2.parent_asset == asset.name)).map Prod.fst))

/-- Iterated resolution passes over one registry (the "sequence of resolution
passes" of the spec's monotonicity property), each pass seeing the asset in
whatever file/completion state it has reached. -/
def runPasses (parse : Bytes → Except RErr Gltf) (decoder : Decoder) (assets : List Asset)
    (reg : Arena) : Arena :=
  assets.foldl (fun g a => (update_renderables_from_asset parse decoder a g).1) reg

/-- Lifecycle events published on the asset bus (`AssetMsg`). -/
inductive AssetMsg
  | New (name : String) (config : Config)
  | Update (name : String)
  | Complete (name : String)
  deriving Repr, DecidableEq

/-- The shared asset store behind `AssetCache` (a map keyed by asset name). -/
abbrev CacheMap := List (String × Asset)

/-- Store insertion `add_asset` (asset_cache.rs lines 110 to 116):
overwrite-and-warn when the key already exists. -/
def add_asset (cache : CacheMap) (key : String) (asset : Asset) : CacheMap :=
  listInsert cache key asset

/-- Store mutation `modify_asset` (lines 118 to 127): apply the function to the
entry when present, log-and-skip otherwise. -/
def modify_asset (cache : CacheMap) (key : String) (f : Asset → Asset) : CacheMap :=
  cache.map (fun p => if p.1 == key then (p.1, f p.2) else p)

/-- Keyed read of the asset store (the `cache.get(name)` reads). -/
def cacheGet (cache : CacheMap) (key : String) : Option Asset :=
  (cache.find? (fun p => p.1 == key)).map Prod.snd

/-- Fan-in of a phase's fetch results, Rust's
`collect::<Result<Vec<_>, CmcError>>()`: all values, or the first error. -/
def collectResults {α : Type} : List (Except CmcError α) → Except CmcError (List α)
  | [] => Except.ok []
  | Except.error e :: _ => Except.error e
  | Except.ok v :: rest =>
      match collectResults rest with
      | Except.error e => Except.error e
      | Except.ok vs => Except.ok (v :: vs)

/-- One fetch pipeline, `fetch_asset` (asset_cache.rs lines 54 to 91), as a
function of the config-fetch outcome and a per-file fetch oracle (standing for
`fetch_binary_file`, which pairs the file name with its bytes).  The returned
triple is the asset store afterwards, the emitted events in order, and the
pipeline's result.  Mirroring the source order: a failed config fetch just
logs; on success the asset is inserted and `New` emitted BEFORE the prompt
fetches are joined; a failed join aborts via `?`; then files are attached and
`Update` emitted; then the deferrable join, attachment, completion and
`Complete`. -/
def fetch_asset (configRes : Except CmcError Config)
    (oracle : String → Except CmcError Bytes) (cache : CacheMap) :
    CacheMap × List AssetMsg × Except CmcError Unit :=
  match configRes with
  | Except.error _ => (cache, [], Except.ok ())
  | Except.ok config =>
      let asset_name := config.name
      let cache1 := add_asset cache asset_name (Asset.new asset_name config)
      let events1 := [AssetMsg.New asset_name config]
      match collectResults (config.get_prompt_files.map
          (fun f => (oracle f).map (fun d => (f, d)))) with
      | Except.error e => (cache1, events1, Except.error e)
      | Except.ok prompt_files =>
          let cache2 := modify_asset cache1 asset_name (fun a => a.add_files prompt_files)
          let events2 := events1 ++ [AssetMsg.Update asset_name]
          match collectResults (config.get_deferrable_files.map
              (fun f => (oracle f).map (fun d => (f, d)))) with
          | Except.error e => (cache2, events2, Except.error e)
          | Except.ok deferrable_files =>
              let cache3 := modify_asset cache2 asset_name (fun a => a.add_files deferrable_files)
              let cache4 := modify_asset cache3 asset_name (fun a => a.set_complete)
              (cache4, events2 ++ [AssetMsg.Complete asset_name], Except.ok ())

/-! Concrete fixtures used by the counterexample and witness theorems below.
Each is a small, fully explicit instance of the data model. -/

/-- A decoded 1x1 image used as an already-available texture. -/
def imgX : ImageBuffer := { id := "x", width := 1, height := 1, data := [0, 0, 0, 0] }

/-- A glb-rooted config for asset `A`. -/
def cfgA : Config :=
  { name := "A", asset_type := AssetType.GlbModel "a.glb", render_type := ShaderType.Basic }

/-- Asset `A`, already complete, holding no files. -/
def assetC1 : Asset := { name := "A", config := cfgA, state := AssetState.Complete, files := [] }

/-- A buffer view over the uri buffer `missing.bin`. -/
def vC1 : GView :=
  { buffer := { index := 0, source := GBufSource.Uri "missing.bin" }
    offset := 0, length := 4, stride := none, name := none }

/-- An index accessor reading through `vC1`. -/
def gaccC1 : GAccessor :=
  { view := some vC1, count := 3, data_type := 5123, multiplicity := 1, normalized := false }

/-- A primitive with no attributes, an index accessor, and no material texture. -/
def primC1 : GPrimitive :=
  { attributes := [], indices := some gaccC1, material := { base_color_texture := none } }

/-- A document with one mesh-bearing node whose index data lives in the absent
file `missing.bin`. -/
def gC1 : Gltf :=
  { nodes := [{ name := some "n", mesh := some { primitives := [primC1] } }]
    buffers := [{ index := 0, source := GBufSource.Uri "missing.bin" }]
    images := [], blob := none }

/-- The all-zero base transform every fresh renderable starts from. -/
def zeroTransform : List (List Rat) := List.replicate 4 (List.replicate 4 (0 : Rat))

/-- A renderable for node 0 of `gC1` whose base color is already available. -/
def rC1 : Renderable :=
  { parent_asset := "A", id := { name := "A0_n", node_index := 0 }
    base_color := some { status := TextureStatus.Available imgX, wrap_s := 10497, wrap_t := 10497 }
    accessors := [], indices := none
    base_transform := zeroTransform, render_target := ShaderType.Basic }

/-- A decoder oracle that is never consulted in the scenarios using it. -/
def decNever : Decoder := fun _ _ => Except.error "not invoked"

/-- A document whose only image is a uri image with MIME type `image/gif`. -/
def gC9 : Gltf :=
  { nodes := [], buffers := []
    images := [{ source := GImgSource.Uri "img.gif" (some "image/gif") }], blob := none }

/-- Asset `A`, complete, holding the bytes of `img.gif`. -/
def assetC9 : Asset := { assetC1 with files := [("img.gif", [1, 2, 3])] }

/-- A named view over the embedded blob, used by a view-backed image. -/
def vC8 : GView :=
  { buffer := { index := 0, source := GBufSource.Bin }
    offset := 0, length := 2, stride := none, name := some "v0" }

/-- A document with a view-backed png image over the embedded blob. -/
def gC8 : Gltf :=
  { nodes := [], buffers := [{ index := 0, source := GBufSource.Bin }]
    images := [{ source := GImgSource.View vC8 "image/png" }], blob := some [1, 2, 3, 4] }

/-- A cache already holding the raw bytes of the blob buffer under its id. -/
def cC8 : BufferCache :=
  { bin := [("Abbb", { id := "Abbb", data := [1, 2, 3, 4] })], image := [] }

/-- An unnamed view at offset 0. -/
def vA : GView :=
  { buffer := { index := 0, source := GBufSource.Bin }
    offset := 0, length := 1, stride := none, name := none }

/-- A distinct unnamed view at offset 1. -/
def vB : GView := { vA with offset := 1 }

/-- A config with three prompt files (the root plus two more). -/
def cfg3 : Config :=
  { name := "A", asset_type := AssetType.GltfModel "r.gltf" ["p1", "p2"] []
    render_type := ShaderType.NoRender }

/-- A fetch oracle for which fetch number 2 of the prompt phase (`p1`) fails. -/
def oracle3 : String → Except CmcError Bytes :=
  fun f => if f == "p1" then Except.error (CmcError.MissingVal "http 404") else Except.ok [0]

/-- A gltf-rooted config for asset `A`. -/
def cfg4 : Config :=
  { name := "A", asset_type := AssetType.GltfModel "a.gltf" [] []
    render_type := ShaderType.Basic }

/-- Asset `A`, incomplete, holding only the scene root file. -/
def asset4 : Asset :=
  { name := "A", config := cfg4, state := AssetState.Incomplete, files := [("a.gltf", [])] }

/-- A primitive with no index accessor at all. -/
def prim40 : GPrimitive :=
  { attributes := [], indices := none, material := { base_color_texture := none } }

/-- A texture whose image is the uri image `t.png`. -/
def tex4 : GTexture :=
  { source := { source := GImgSource.Uri "t.png" (some "image/png") }
    sampler := { wrap_s := 10497, wrap_t := 10497 } }

/-- A primitive with an index accessor and a base-color texture. -/
def prim41 : GPrimitive :=
  { attributes := [], indices := some gaccC1, material := { base_color_texture := some tex4 } }

/-- A two-node document: node 0 bears `prim40` (no indices), node 1 bears
`prim41`. -/
def g4 : Gltf :=
  { nodes := [{ name := some "n0", mesh := some { primitives := [prim40] } },
              { name := some "n1", mesh := some { primitives := [prim41] } }]
    buffers := [{ index := 0, source := GBufSource.Uri "missing.bin" }]
    images := [{ source := GImgSource.Uri "t.png" (some "image/png") }], blob := none }

/-- A fresh renderable for node 0 of `g4`. -/
def r40 : Renderable :=
  { parent_asset := "A", id := { name := "A0_n0", node_index := 0 }
    base_color := none, accessors := [], indices := none
    base_transform := zeroTransform, render_target := ShaderType.Basic }

/-- A fresh renderable for node 1 of `g4`. -/
def r41 : Renderable := { r40 with id := { name := "A1_n1", node_index := 1 } }

/-- A parser oracle returning `g4`. -/
def parse4 : Bytes → Except RErr Gltf := fun _ => Except.ok g4

/-- A registry already holding both renderables of `g4`. -/
def arena4 : Arena := { next := 2, items := [(0, r40), (1, r41)] }

/-- An index accessor already populated with its buffer. -/
def ind5 : Accessor :=
  { attrib := Attribute.Indices, buffer := some { id := "Aind0", data := [1, 2] }
    buffer_id := "Aind0", data_type := 5123, stride := 0, count := 1, num_items := 1
    normalized := false, offset := 0 }

/-- A renderable whose base color is `Pending` under an id that matches no
image of the document. -/
def r5 : Renderable :=
  { parent_asset := "A", id := { name := "A0_n0", node_index := 0 }
    base_color := some { status := TextureStatus.Pending "garbage", wrap_s := 0, wrap_t := 0 }
    accessors := [], indices := some ind5
    base_transform := zeroTransform, render_target := ShaderType.Basic }

/-- A one-node document whose primitive carries a uri-image base color. -/
def g5 : Gltf :=
  { nodes := [{ name := some "n0", mesh := some { primitives :=
      [{ attributes := [], indices := some gaccC1,
         material := { base_color_texture := some tex4 } }] } }]
    buffers := [], images := [{ source := GImgSource.Uri "t.png" (some "image/png") }]
    blob := none }

/-- Asset `A`, incomplete, holding the root and the texture file `t.png`. -/
def asset5 : Asset :=
  { name := "A", config := cfg4, state := AssetState.Incomplete
    files := [("a.gltf", []), ("t.png", [9])] }

/-- A parser oracle returning `g5`. -/
def parse5 : Bytes → Except RErr Gltf := fun _ => Except.ok g5

/-- A decoder oracle that decodes anything into a 1x1 image. -/
def dec5 : Decoder := fun _ _ => Except.ok (1, 1, [0, 0, 0, 0])

/-- A registry holding only `r5`. -/
def arena5 : Arena := { next := 1, items := [(0, r5)] }

/-- A document with a single node that has NO mesh. -/
def g7 : Gltf :=
  { nodes := [{ name := some "n", mesh := none }], buffers := [], images := [], blob := none }

/-- A parser oracle returning `g7`. -/
def parse7 : Bytes → Except RErr Gltf := fun _ => Except.ok g7

/-- The empty registry. -/
def arena0 : Arena := { next := 0, items := [] }

/-- The 4x4 identity matrix, for comparison against the base transform. -/
def idMatrix4 : List (List Rat) :=
  [[1, 0, 0, 0], [0, 1, 0, 0], [0, 0, 1, 0], [0, 0, 0, 1]]

/-- C10: every newly created Renderable starts with its base transform equal to
the all-zero 4x4 matrix (which is not the identity matrix), with no accessors,
no index accessor, and no base-color texture recorded. -/
theorem c10_renderable_new_initial_state (asset : Asset) (id : RenderableId) :
    (Renderable.new asset id).base_transform = List.replicate 4 (List.replicate 4 (0 : Rat)) ∧
    (Renderable.new asset id).base_transform ≠ idMatrix4 ∧
    (Renderable.new asset id).accessors = [] ∧
    (Renderable.new asset id).indices = none ∧
    (Renderable.new asset id).base_color = none := by
  refine ⟨rfl, ?_, rfl, rfl, rfl⟩
  show List.replicate 4 (List.replicate 4 (0 : Rat)) ≠ idMatrix4
  decide

/-- C8: with the view-backed image of `gC8` whose source buffer's raw bytes sit
in the cache under that buffer's id (`Abbb`), `lookup_img_from_asset` does not
return the `[offset, offset+length)` sub-range of the cached data: it fails
with `MissingVal`, because the source compares the first bin-cache entry's key
against the image's own view-image id (`Abivv0`), which is never a binary
buffer id.  The claimed sub-range extraction is unreachable. -/
theorem c8_view_image_lookup_fails_despite_cached_source :
    cC8.get_bin ("Abbb") = some { id := "Abbb", data := [1, 2, 3, 4] } ∧
    (cC8.lookup_img_from_asset ("Abivv0") gC8 assetC1 decNever).1 =
      Except.error (RErr.cmc (CmcError.MissingVal ("Binary source buffer doesnt match!"))) ∧
    (cC8.lookup_img_from_asset ("Abivv0") gC8 assetC1 decNever).2 = cC8 :=
  ⟨rfl, rfl, rfl⟩

/-- C9 counterexample: the only image of `gC9` has MIME type `image/gif`
(neither jpeg nor png), yet `lookup_img_from_asset` fails with `NotYet` — not
with a fatal decode error — because the named file is absent and the file
lookup runs before the MIME check, so this failure is treated as a transient
missing dependency. -/
theorem c9_bad_mime_can_still_be_notyet_counterexample :
    gC9.images = [{ source := GImgSource.Uri "img.gif" (some "image/gif") }] ∧
    assetC1.get_file ("img.gif") = none ∧
    (BufferCache.empty.lookup_img_from_asset ("Abiuimg.gif") gC9 assetC1 decNever).1 =
      Except.error (RErr.cmc CmcError.NotYet) :=
  ⟨rfl, rfl, rfl⟩

/-- C6 counterexample: two distinct view-backed image sources (their views
differ in offset and both carry no name) receive the SAME buffer id
`Abivunk`, so `build_buffer_id` is not injective over logical sources within
one asset. -/
theorem c6_view_image_id_collision_counterexample :
    BufferSource.Image (GImgSource.View vA "image/png") ≠
      BufferSource.Image (GImgSource.View vB "image/png") ∧
    build_buffer_id (BufferSource.Image (GImgSource.View vA "image/png")) "A" =
      build_buffer_id (BufferSource.Image (GImgSource.View vB "image/png")) "A" :=
  ⟨by decide, rfl⟩

/-- C3 counterexample: with the three-prompt-file config `cfg3` whose second
prompt fetch fails, the pipeline nevertheless emits `New` and inserts the
(empty, incomplete) Asset into the cache — both happen right after the config
fetch succeeds, before the prompt fan-in. -/
theorem c3_new_emitted_before_prompt_barrier_counterexample :
    cfg3.get_prompt_files = ["r.gltf", "p1", "p2"] ∧
    oracle3 "p1" = Except.error (CmcError.MissingVal "http 404") ∧
    (fetch_asset (Except.ok cfg3) oracle3 []).2.1 = [AssetMsg.New "A" cfg3] ∧
    cacheGet (fetch_asset (Except.ok cfg3) oracle3 []).1 "A" = some (Asset.new "A" cfg3) ∧
    (fetch_asset (Except.ok cfg3) oracle3 []).2.2 =
      Except.error (CmcError.MissingVal "http 404") :=
  ⟨rfl, rfl, rfl, rfl, rfl⟩

/-- C4 counterexample: in the two-renderable registry `arena4`, the update of
renderable 0 fails (`Prim missing indices`), and the pass aborts: renderable 1
is left completely untouched — its base color is still empty — although
updating it by itself would record a `Pending` base color.  Other renderables
do NOT continue after a resolution error. -/
theorem c4_error_aborts_whole_pass_counterexample :
    (update_renderables_from_asset parse4 decNever asset4 arena4).2 =
      Except.error (RErr.cmc (CmcError.MissingVal ("Prim missing indices"))) ∧
    (update_renderables_from_asset parse4 decNever asset4 arena4).1.items = [(0, r40), (1, r41)] ∧
    r41.base_color = none ∧
    (r41.update g4 asset4 BufferCache.empty decNever).1.base_color =
      some { status := TextureStatus.Pending ("Abiut.png"), wrap_s := 10497, wrap_t := 10497 } :=
  ⟨rfl, rfl, rfl, rfl⟩

/-- C7 counterexample: `g7` has a single node carrying NO mesh, yet one pass
over the empty registry inserts a Renderable for it (the insertion loop walks
all nodes, not just mesh-bearing ones). -/
theorem c7_meshless_node_gets_renderable_counterexample :
    g7.nodes.map GNode.mesh = [none] ∧
    ((update_renderables_from_asset parse7 decNever asset4 arena0).1.items.map
      (fun p => (p.1, p.2.id))) = [(0, { name := "A0_n", node_index := 0 })] :=
  ⟨rfl, rfl⟩

/-- C5 counterexample: starting from `arena5` (whose renderable carries a
`Pending` base color under an id matching no document image), the first pass
fails and clears the base color (the take-and-error path), and the second pass
then rebuilds the correct pending id and resolves it to `Available` — the two
calls leave the registry in different states although the asset's files did
not change. -/
theorem c5_failing_first_pass_not_idempotent_counterexample :
    (update_renderables_from_asset parse5 dec5 asset5
        (update_renderables_from_asset parse5 dec5 asset5 arena5).1).1 ≠
      (update_renderables_from_asset parse5 dec5 asset5 arena5).1 :=
  by decide

/-- C1 counterexample: `assetC1` is complete and the index-buffer source file
`missing.bin` is absent, yet the resolution pass over `rC1` returns `Ok` and
simply leaves the index buffer unpopulated — index resolution does not fail
with the promoted missing-component error, so the promotion rule is not
uniform across the three resolution paths. -/
theorem c1_index_path_not_promoted_counterexample :
    assetC1.is_complete = true ∧
    assetC1.get_file ("missing.bin") = none ∧
    (rC1.update gC1 assetC1 BufferCache.empty decNever).2.2 = Except.ok () ∧
    ((rC1.update gC1 assetC1 BufferCache.empty decNever).1.indices.map
      (fun a => a.buffer)) = some none :=
  ⟨rfl, rfl, rfl, rfl⟩

/-! Helper lemmas about the cache lookups (shared by several claim proofs). -/

/-- The returned value of `lookup_bin_from_asset` does not depend on the cache
(only the returned cache does). -/
theorem lookup_bin_fst_indep (c c' : BufferCache) (id : BufferId) (gltf : Gltf)
    (asset : Asset) :
    (c.lookup_bin_from_asset id gltf asset).1 = (c'.lookup_bin_from_asset id gltf asset).1 := by
  unfold BufferCache.lookup_bin_from_asset
  split
  · rfl
  · split
    · split <;> rfl
    · split <;> rfl

/-- On any error, `lookup_bin_from_asset` leaves the cache unchanged. -/
theorem lookup_bin_err_cache {c : BufferCache} {id : BufferId} {gltf : Gltf} {asset : Asset}
    {e : RErr} (h : (c.lookup_bin_from_asset id gltf asset).1 = Except.error e) :
    (c.lookup_bin_from_asset id gltf asset).2 = c := by
  unfold BufferCache.lookup_bin_from_asset at h ⊢
  revert h
  split
  · intro _; rfl
  · split
    · split
      · intro _; rfl
      · intro h; exact absurd h (by simp)
    · split
      · intro _; rfl
      · intro h; exact absurd h (by simp)

/-- On any error, `lookup_img_from_asset` leaves the cache unchanged. -/
theorem lookup_img_err_cache {c : BufferCache} {id : BufferId} {gltf : Gltf} {asset : Asset}
    {dec : Decoder} {e : RErr}
    (h : (c.lookup_img_from_asset id gltf asset dec).1 = Except.error e) :
    (c.lookup_img_from_asset id gltf asset dec).2 = c := by
  unfold BufferCache.lookup_img_from_asset at h ⊢
  revert h
  split
  · intro _; rfl
  · split
    · intro _; rfl
    · split
      · intro _; rfl
      · split
        · intro _; rfl
        · intro h; exact absurd h (by simp)

/-- A `NotYet` failure of `lookup_img_from_asset` does not depend on the cache:
it arises only in the uri-image branch, from the absence of the named file. -/
theorem lookup_img_notyet_indep {c : BufferCache} {id : BufferId} {gltf : Gltf}
    {asset : Asset} {dec : Decoder}
    (h : (c.lookup_img_from_asset id gltf asset dec).1 =
      Except.error (RErr.cmc CmcError.NotYet)) (c' : BufferCache) :
    (c'.lookup_img_from_asset id gltf asset dec).1 =
      Except.error (RErr.cmc CmcError.NotYet) := by
  have raw_stable : ∀ {src : GImgSource},
      imgRawData c asset src = Except.error (RErr.cmc CmcError.NotYet) →
      imgRawData c' asset src = Except.error (RErr.cmc CmcError.NotYet) := by
    intro src hr
    cases src with
    | View view mime_type =>
        exfalso
        simp only [imgRawData] at hr
        cases hh : c.bin.head? with
        | none => simp only [hh] at hr; simp [CmcError.missing_val] at hr
        | some p =>
            obtain ⟨bid, bin⟩ := p
            simp only [hh] at hr
            split at hr <;> try (split at hr)
            all_goals simp [CmcError.missing_val] at hr
    | Uri uri mime_type =>
        simp only [imgRawData] at hr ⊢
        cases hgf : asset.get_file uri with
        | none => rfl
        | some file => rw [hgf] at hr; simp at hr
  simp only [BufferCache.lookup_img_from_asset] at h ⊢
  revert h
  split
  · intro h
    simp [CmcError.missing_val] at h
  · rename_i img hfind
    intro h
    cases himg : imgRawData c asset img.source with
    | error e =>
        simp only [himg, Except.error.injEq] at h
        subst h
        simp [raw_stable himg]
    | ok p =>
        exfalso
        obtain ⟨raw_data, mime⟩ := p
        simp only [himg] at h
        cases hmf : mimeFormat mime with
        | error e2 =>
            simp only [hmf, Except.error.injEq] at h
            subst h
            revert hmf
            simp only [mimeFormat]
            split <;> simp
        | ok fmt =>
            simp only [hmf] at h
            cases hdec : dec fmt raw_data with
            | error msg => simp only [hdec] at h; simp at h
            | ok t =>
                obtain ⟨w, t2⟩ := t
                obtain ⟨ht, d⟩ := t2
                simp only [hdec] at h
                simp at h

/-- C3 (amended): when the config fetch succeeds, the Asset is inserted and
`New` is emitted immediately — before the prompt fan-in — so a failing prompt
fetch aborts the pipeline with exactly `New` emitted and the fresh (empty,
incomplete) Asset already cached under the config's name. -/
theorem c3_amended_new_before_prompt_barrier (config : Config)
    (oracle : String → Except CmcError Bytes) (cache : CacheMap) (e : CmcError)
    (hfail : collectResults (config.get_prompt_files.map
      (fun f => (oracle f).map (fun d => (f, d)))) = Except.error e) :
    fetch_asset (Except.ok config) oracle cache =
      (add_asset cache config.name (Asset.new config.name config),
        [AssetMsg.New config.name config], Except.error e) := by
  simp only [fetch_asset, hfail]

/-- C3 witness: the amended theorem applied to the concrete three-prompt-file
config whose second prompt fetch fails. -/
theorem c3_amended_new_before_prompt_barrier_witness :
    fetch_asset (Except.ok cfg3) oracle3 [] =
      (add_asset [] cfg3.name (Asset.new cfg3.name cfg3),
        [AssetMsg.New cfg3.name cfg3], Except.error (CmcError.MissingVal "http 404")) :=
  c3_amended_new_before_prompt_barrier cfg3 oracle3 [] (CmcError.MissingVal "http 404") rfl

/-- C9 (amended): once the raw bytes of a uri image have been obtained (the
named file is present), a MIME type that is neither `image/jpeg` nor
`image/png` — including an absent one — makes `lookup_img_from_asset` panic
(`Unknown image format!`), a fatal failure that is not `NotYet`; but when the
named file is absent the lookup fails with `NotYet` before the MIME type is
ever examined, and a view-backed image fails with `MissingVal` earlier
still. -/
theorem c9_amended_bad_mime_fatal_once_bytes_present (gltf : Gltf) (asset : Asset)
    (c : BufferCache) (dec : Decoder) (id : BufferId) (img : GImage) (uri : String)
    (mime : Option String) (file : Bytes)
    (hfind : gltf.images.find? (fun i =>
      id == build_buffer_id (BufferSource.Image i.source) asset.name) = some img)
    (hsrc : img.source = GImgSource.Uri uri mime)
    (hfile : asset.get_file uri = some file)
    (hjpeg : mime ≠ some "image/jpeg") (hpng : mime ≠ some "image/png") :
    (c.lookup_img_from_asset id gltf asset dec) =
      (Except.error (RErr.panic ("Unknown image format!")), c) := by
  have hmf : mimeFormat mime = Except.error (RErr.panic ("Unknown image format!")) := by
    unfold mimeFormat
    split
    · exact absurd rfl hjpeg
    · exact absurd rfl hpng
    · rfl
  have hraw : imgRawData c asset img.source = Except.ok (file, mime) := by
    rw [hsrc]
    simp only [imgRawData, hfile]
  simp only [BufferCache.lookup_img_from_asset, hfind, hraw, hmf]

/-- C9 witness: the amended theorem applied to the gif-typed uri image of
`gC9` with its file present in `assetC9`. -/
theorem c9_amended_bad_mime_fatal_once_bytes_present_witness :
    (BufferCache.empty.lookup_img_from_asset ("Abiuimg.gif") gC9 assetC9 decNever) =
      (Except.error (RErr.panic ("Unknown image format!")), BufferCache.empty) :=
  c9_amended_bad_mime_fatal_once_bytes_present gC9 assetC9 BufferCache.empty decNever
    ("Abiuimg.gif") { source := GImgSource.Uri "img.gif" (some "image/gif") }
    "img.gif" (some "image/gif") [1, 2, 3] rfl rfl rfl (by decide) (by decide)

/-- C4 (amended): a resolution error other than a swallowed `NotYet` aborts
the entire `update_renderables_from_asset` loop: when the update of the head
renderable fails, the loop returns immediately with that error and every
renderable after it keeps exactly its previous state for this pass. -/
theorem c4_amended_error_aborts_whole_pass (gltf : Gltf) (asset : Asset) (dec : Decoder)
    (c : BufferCache) (i : Nat) (r : Renderable) (rest : List (Nat × Renderable))
    (r' : Renderable) (c' : BufferCache) (e : RErr)
    (hmatch : (r.parent_asset == asset.name) = true)
    (hupd : r.update gltf asset c dec = (r', c', Except.error e)) :
    updateAll gltf asset dec ((i, r) :: rest) c = ((i, r') :: rest, c', Except.error e) := by
  unfold updateAll
  rw [hmatch, hupd]
  rfl

/-- C4 witness: the amended theorem applied to the two-renderable registry of
`g4`, whose head renderable fails with `Prim missing indices`. -/
theorem c4_amended_error_aborts_whole_pass_witness :
    updateAll g4 asset4 decNever [(0, r40), (1, r41)] BufferCache.empty =
      ([(0, r40), (1, r41)], BufferCache.empty,
        Except.error (RErr.cmc (CmcError.MissingVal ("Prim missing indices")))) :=
  c4_amended_error_aborts_whole_pass g4 asset4 decNever BufferCache.empty 0 r40 [(1, r41)]
    r40 BufferCache.empty (RErr.cmc (CmcError.MissingVal ("Prim missing indices"))) rfl rfl

/-- C1 (amended): the NotYet-promotion rule holds for the vertex-attribute and
base-color-texture resolution paths — a `NotYet` is swallowed (the field stays
unresolved) while the asset is incomplete and becomes the fatal
missing-component `MissingVal` once it is complete — but NOT for the index
path: index-buffer population consults only the per-pass cache, never raises
`NotYet`, and a missing source buffer leaves the index buffer unpopulated with
no error even on a complete asset. -/
theorem c1_amended_promotion_two_paths_only :
    (∀ (gltf : Gltf) (asset : Asset) (c : BufferCache) (acc : Accessor),
      acc.buffer = none →
      c.get_bin acc.buffer_id = none →
      (c.lookup_bin_from_asset acc.buffer_id gltf asset).1 =
        Except.error (RErr.cmc CmcError.NotYet) →
      resolveAccBuffer gltf asset c acc =
        (acc, c,
          if asset.is_complete then
            Except.error (RErr.cmc
              (CmcError.missing_val ("asset is complete but missing component")))
          else Except.ok ())) ∧
    (∀ (gltf : Gltf) (asset : Asset) (c : BufferCache) (dec : Decoder) (id_name : String)
        (bc : Texture) (target : BufferId),
      bc.status = TextureStatus.Pending target →
      c.get_image target = none →
      (c.lookup_img_from_asset target gltf asset dec).1 =
        Except.error (RErr.cmc CmcError.NotYet) →
      baseColorResolve gltf asset c dec id_name (some bc) =
        (if asset.is_complete then none else some bc, c,
          if asset.is_complete then
            Except.error (RErr.cmc (CmcError.missing_val
              (id_name ++ ": asset is complete but missing component")))
          else Except.ok ())) ∧
    (∀ (asset : Asset) (c : BufferCache) (prim : GPrimitive) (ind : Accessor)
        (accr : GAccessor) (view : GView),
      ind.buffer = none →
      prim.indices = some accr →
      accr.view = some view →
      c.get_bin (build_buffer_id (BufferSource.Binary view.buffer.source) asset.name) = none →
      indicesPopulate asset c prim (some ind) = (some ind, Except.ok ())) := by
  refine ⟨?_, ?_, ?_⟩
  · intro gltf asset c acc hbuf hget hlook
    have hc2 : (c.lookup_bin_from_asset acc.buffer_id gltf asset).2 = c :=
      lookup_bin_err_cache hlook
    have hpair : c.lookup_bin_from_asset acc.buffer_id gltf asset =
        (Except.error (RErr.cmc CmcError.NotYet), c) := by
      rw [Prod.ext_iff]
      exact ⟨hlook, hc2⟩
    unfold resolveAccBuffer
    rw [hbuf, hget, hpair]
    cases hcmp : asset.is_complete <;> simp [hcmp]
  · intro gltf asset c dec id_name bc target hst hget hlook
    have hc2 : (c.lookup_img_from_asset target gltf asset dec).2 = c :=
      lookup_img_err_cache hlook
    have hpair : c.lookup_img_from_asset target gltf asset dec =
        (Except.error (RErr.cmc CmcError.NotYet), c) := by
      rw [Prod.ext_iff]
      exact ⟨hlook, hc2⟩
    obtain ⟨st, ws, wt⟩ := bc
    simp only at hst
    subst hst
    simp only [baseColorResolve, hget, hpair]
    cases hcmp : asset.is_complete <;> simp [hcmp]
  · intro asset c prim ind accr view hbuf hind hview hget
    obtain ⟨atr, buf, bid, dt, st, cnt, ni, nz, off⟩ := ind
    simp only at hbuf
    subst hbuf
    simp only [indicesPopulate, hind, hview, hget, Option.isSome_none]
    rfl

/-- C1 witness: the three conclusions of the amended theorem instantiated on
the complete asset `assetC1` — the attribute path promotes, the texture path
promotes, and the index path silently leaves the buffer empty. -/
theorem c1_amended_promotion_two_paths_only_witness :
    (resolveAccBuffer gC1 assetC1 BufferCache.empty
        { attrib := Attribute.Positions, buffer := none, buffer_id := "Abbumissing.bin"
          data_type := 5126, stride := 0, count := 3, num_items := 3, normalized := false
          offset := 0 } =
      ({ attrib := Attribute.Positions, buffer := none, buffer_id := "Abbumissing.bin"
         data_type := 5126, stride := 0, count := 3, num_items := 3, normalized := false
         offset := 0 }, BufferCache.empty,
        if assetC1.is_complete then
          Except.error (RErr.cmc
            (CmcError.missing_val ("asset is complete but missing component")))
        else Except.ok ())) ∧
    (baseColorResolve gC9 assetC1 BufferCache.empty decNever "A0_n"
        (some { status := TextureStatus.Pending "Abiuimg.gif", wrap_s := 0, wrap_t := 0 }) =
      (if assetC1.is_complete then none
        else some { status := TextureStatus.Pending "Abiuimg.gif", wrap_s := 0, wrap_t := 0 },
        BufferCache.empty,
        if assetC1.is_complete then
          Except.error (RErr.cmc (CmcError.missing_val
            ("A0_n" ++ ": asset is complete but missing component")))
        else Except.ok ())) ∧
    (indicesPopulate assetC1 BufferCache.empty primC1
        (some { attrib := Attribute.Indices, buffer := none, buffer_id := "Aind0"
                data_type := 5123, stride := 0, count := 3, num_items := 1
                normalized := false, offset := 0 }) =
      (some { attrib := Attribute.Indices, buffer := none, buffer_id := "Aind0"
              data_type := 5123, stride := 0, count := 3, num_items := 1
              normalized := false, offset := 0 }, Except.ok ())) :=
  ⟨c1_amended_promotion_two_paths_only.1 gC1 assetC1 BufferCache.empty _ rfl rfl rfl,
   c1_amended_promotion_two_paths_only.2.1 gC9 assetC1 BufferCache.empty decNever "A0_n" _
     "Abiuimg.gif" rfl rfl rfl,
   c1_amended_promotion_two_paths_only.2.2 assetC1 BufferCache.empty primC1 _ gaccC1 vC1
     rfl rfl rfl rfl⟩

/-! Decimal-rendering facts supporting the buffer-id analysis: `natToDec`
(`Nat.repr`) is injective. -/

/-- The decimal digit characters of a natural number, most significant
first — the specification of what `Nat.repr` produces. -/
def decChars (n : Nat) : List Char :=
  if _h : n < 10 then [Nat.digitChar n]
  else decChars (n / 10) ++ [Nat.digitChar (n % 10)]
  decreasing_by
    exact Nat.div_lt_self (Nat.lt_of_lt_of_le (by decide) (Nat.le_of_not_lt _h)) (by decide)

/-- The fuel-based digit accumulator of the core library agrees with
`decChars` whenever the fuel exceeds the number. -/
theorem toDigitsCore_eq_decChars :
    ∀ (fuel n : Nat) (ds : List Char), n < fuel →
      Nat.toDigitsCore 10 fuel n ds = decChars n ++ ds := by
  intro fuel
  induction fuel with
  | zero => intro n ds h; exact absurd h (Nat.not_lt_zero n)
  | succ fuel ih =>
      intro n ds h
      show (if n / 10 = 0 then Nat.digitChar (n % 10) :: ds
            else Nat.toDigitsCore 10 fuel (n / 10) (Nat.digitChar (n % 10) :: ds)) =
        decChars n ++ ds
      by_cases h0 : n / 10 = 0
      · have h10 : n < 10 := by
          by_contra hge
          have : 0 < n / 10 := Nat.div_pos (Nat.le_of_not_lt hge) (by decide)
          omega
        rw [if_pos h0, decChars, dif_pos h10, Nat.mod_eq_of_lt h10]
        rfl
      · have h10 : ¬ n < 10 := fun hlt => h0 (Nat.div_eq_of_lt hlt)
        have hpos : 0 < n := by omega
        have hdiv : n / 10 < fuel :=
          Nat.lt_of_lt_of_le (Nat.div_lt_self hpos (by decide)) (Nat.le_of_lt_succ h)
        rw [if_neg h0, ih (n / 10) (Nat.digitChar (n % 10) :: ds) hdiv]
        conv_rhs => rw [decChars]
        rw [dif_neg h10, List.append_assoc, List.singleton_append]

/-- The decimal rendering is the digit list of `decChars`. -/
theorem natToDec_data (n : Nat) : (natToDec n).data = decChars n := by
  show (Nat.toDigitsCore 10 (n + 1) n []).asString.data = decChars n
  rw [toDigitsCore_eq_decChars (n + 1) n [] (Nat.lt_succ_self n), List.append_nil]
  rfl

/-- Reading a digit list back into a number. -/
def decVal (l : List Char) : Nat :=
  l.foldl (fun a c => a * 10 + (c.toNat - 48)) 0

/-- The digit characters decode back to their value. -/
theorem digitChar_toNat (d : Nat) (h : d < 10) : (Nat.digitChar d).toNat - 48 = d := by
  interval_cases d <;> rfl

/-- Decoding inverts `decChars`. -/
theorem decVal_decChars (n : Nat) : decVal (decChars n) = n := by
  induction n using Nat.strong_induction_on with
  | _ n ih =>
      rw [decChars]
      by_cases h10 : n < 10
      · rw [dif_pos h10]
        show 0 * 10 + ((Nat.digitChar n).toNat - 48) = n
        rw [digitChar_toNat n h10]
        omega
      · have hpos : 0 < n := by omega
        rw [dif_neg h10]
        unfold decVal
        rw [List.foldl_append]
        show decVal (decChars (n / 10)) * 10 + ((Nat.digitChar (n % 10)).toNat - 48) = n
        rw [ih (n / 10) (Nat.div_lt_self hpos (by decide)),
          digitChar_toNat (n % 10) (Nat.mod_lt n (by decide))]
        omega

/-- The decimal rendering used in the id strings is injective. -/
theorem natToDec_injective : Function.Injective natToDec := by
  intro a b h
  have hd : decChars a = decChars b := by
    rw [← natToDec_data, ← natToDec_data, h]
  have := congrArg decVal hd
  rwa [decVal_decChars, decVal_decChars] at this

/-- The three-letter kind code of a logical buffer source. -/
def kindCode : BufferSource → String
  | BufferSource.Binary GBufSource.Bin => "bbb"
  | BufferSource.Binary (GBufSource.Uri _) => "bbu"
  | BufferSource.Image (GImgSource.View _ _) => "biv"
  | BufferSource.Image (GImgSource.Uri _ _) => "biu"
  | BufferSource.Index _ => "ind"

/-- The discriminator of a logical buffer source: the file path, the view's
name-or-unk, the uri, or the decimal node index; empty for the embedded
blob. -/
def discr : BufferSource → String
  | BufferSource.Binary GBufSource.Bin => ""
  | BufferSource.Binary (GBufSource.Uri path) => path
  | BufferSource.Image (GImgSource.View view _) => view.name.getD "unk"
  | BufferSource.Image (GImgSource.Uri uri _) => uri
  | BufferSource.Index node_index => natToDec node_index

/-- Every buffer id is the asset name, the kind code, then the
discriminator. -/
theorem build_buffer_id_shape (s : BufferSource) (name : String) :
    build_buffer_id s name = name ++ kindCode s ++ discr s := by
  cases s with
  | Binary b => cases b <;> simp [build_buffer_id, kindCode, discr, String.append_empty]
  | Image i => cases i <;> simp [build_buffer_id, kindCode, discr]
  | Index n => simp [build_buffer_id, kindCode, discr]

/-- Splitting an id string: with three-letter kind codes, equal ids force
equal codes and equal discriminators. -/
theorem append3_inj {name c1 c2 d1 d2 : String} (h1 : c1.length = 3) (h2 : c2.length = 3)
    (h : name ++ c1 ++ d1 = name ++ c2 ++ d2) : c1 = c2 ∧ d1 = d2 := by
  have hdata := congrArg String.data h
  rw [String.data_append, String.data_append, String.data_append, String.data_append,
    List.append_assoc, List.append_assoc] at hdata
  have h2' := List.append_cancel_left hdata
  have hlen : c1.data.length = c2.data.length := by
    have e1 : c1.data.length = c1.length := rfl
    have e2 : c2.data.length = c2.length := rfl
    rw [e1, e2, h1, h2]
  have hboth := List.append_inj h2' hlen
  exact ⟨String.ext hboth.1, String.ext hboth.2⟩

/-- C6 (amended): `build_buffer_id` is a pure function of the logical source
and asset name (determinism is definitional), and within one asset two ids
coincide exactly when their kind codes and discriminators coincide.  Hence
ids are collision-free across kinds and within the uri-buffer, uri-image and
synthetic-index kinds (the decimal node index is injective), but view-backed
images are keyed only by their view's optional name (`"unk"` when absent), so
two distinct views with the same name-or-unk collide. -/
theorem c6_amended_id_eq_iff_kind_and_discr :
    (∀ (name : String) (s1 s2 : BufferSource),
      build_buffer_id s1 name = build_buffer_id s2 name ↔
        (kindCode s1 = kindCode s2 ∧ discr s1 = discr s2)) ∧
    (∀ (name : String) (n1 n2 : Nat),
      build_buffer_id (BufferSource.Index n1) name =
        build_buffer_id (BufferSource.Index n2) name → n1 = n2) := by
  have hlen : ∀ s : BufferSource, (kindCode s).length = 3 := by
    intro s
    cases s with
    | Binary b => cases b <;> rfl
    | Image i => cases i <;> rfl
    | Index n => rfl
  have main : ∀ (name : String) (s1 s2 : BufferSource),
      build_buffer_id s1 name = build_buffer_id s2 name ↔
        (kindCode s1 = kindCode s2 ∧ discr s1 = discr s2) := by
    intro name s1 s2
    rw [build_buffer_id_shape, build_buffer_id_shape]
    constructor
    · intro h
      exact append3_inj (hlen s1) (hlen s2) h
    · intro h
      rw [h.1, h.2]
  refine ⟨main, ?_⟩
  intro name n1 n2 h
  have := ((main name (BufferSource.Index n1) (BufferSource.Index n2)).mp h).2
  exact natToDec_injective this

/-- C6 witness: the amended theorem applied concretely — a uri-buffer id never
equals a synthetic-index id, and equal synthetic-index ids force equal node
indices. -/
theorem c6_amended_id_eq_iff_kind_and_discr_witness :
    (build_buffer_id (BufferSource.Binary (GBufSource.Uri "p")) "A" ≠
      build_buffer_id (BufferSource.Index 3) "A") ∧ (3 : Nat) = 3 :=
  ⟨fun h => by
      have hk := ((c6_amended_id_eq_iff_kind_and_discr.1 "A"
        (BufferSource.Binary (GBufSource.Uri "p")) (BufferSource.Index 3)).mp h).1
      exact absurd hk (by decide),
   c6_amended_id_eq_iff_kind_and_discr.2 "A" 3 3 rfl⟩

/-! Registry-shape lemmas supporting the insertion claim. -/

/-- Pair a list with consecutive indices starting at `n`. -/
def idxFrom {α : Type} (n : Nat) : List α → List (Nat × α)
  | [] => []
  | x :: xs => (n, x) :: idxFrom (n + 1) xs

/-- Indexing a mapped list indexes the original. -/
theorem idxFrom_map {α β : Type} (f : α → β) :
    ∀ (n : Nat) (l : List α),
      idxFrom n (l.map f) = (idxFrom n l).map (fun q => (q.1, f q.2)) := by
  intro n l
  induction l generalizing n with
  | nil => rfl
  | cons x xs ih => simp [idxFrom, ih]

/-- Inserting a batch of renderables appends them with consecutive fresh
indices. -/
theorem insertNewRenderables_items :
    ∀ (rs : List Renderable) (a : Arena),
      (insertNewRenderables a rs).items = a.items ++ idxFrom a.next rs ∧
      (insertNewRenderables a rs).next = a.next + rs.length := by
  intro rs
  induction rs with
  | nil => intro a; simp [insertNewRenderables, idxFrom]
  | cons r rs ih =>
      intro a
      have h := ih (a.insert r)
      constructor
      · show (insertNewRenderables (a.insert r) rs).items = _
        rw [h.1]
        simp [Arena.insert, idxFrom]
      · show (insertNewRenderables (a.insert r) rs).next = _
        rw [h.2]
        simp [Arena.insert]
        omega

/-- One update never changes a renderable's identity. -/
theorem update_preserves_id (r : Renderable) (gltf : Gltf) (asset : Asset)
    (c : BufferCache) (dec : Decoder) : ((r.update gltf asset c dec).1).id = r.id := by
  simp only [Renderable.update]
  repeat' split
  all_goals rfl

/-- One update never changes a renderable's parent asset. -/
theorem update_preserves_parent (r : Renderable) (gltf : Gltf) (asset : Asset)
    (c : BufferCache) (dec : Decoder) :
    ((r.update gltf asset c dec).1).parent_asset = r.parent_asset := by
  simp only [Renderable.update]
  repeat' split
  all_goals rfl

/-- The update loop preserves every entry's index, identity and parent
asset. -/
theorem updateAll_meta (gltf : Gltf) (asset : Asset) (dec : Decoder) :
    ∀ (items : List (Nat × Renderable)) (c : BufferCache),
      ((updateAll gltf asset dec items c).1).map (fun p => (p.1, p.2.id, p.2.parent_asset)) =
        items.map (fun p => (p.1, p.2.id, p.2.parent_asset)) := by
  intro items
  induction items with
  | nil => intro c; rfl
  | cons p rest ih =>
      intro c
      obtain ⟨i, r⟩ := p
      unfold updateAll
      by_cases hm : (r.parent_asset == asset.name) = true
      · rw [if_pos hm]
        cases hu : r.update gltf asset c dec with
        | mk r' rc =>
            obtain ⟨c', res⟩ := rc
            have hid : r'.id = r.id := by
              have := update_preserves_id r gltf asset c dec
              rw [hu] at this
              exact this
            have hpar : r'.parent_asset = r.parent_asset := by
              have := update_preserves_parent r gltf asset c dec
              rw [hu] at this
              exact this
            cases res with
            | error e => simp [hid, hpar]
            | ok u => simp [hid, hpar, ih c']
      · rw [if_neg hm]
        simp [ih c]

/-- C7 (amended): one pass inserts a fresh Renderable for EVERY node of the
document (mesh-bearing or not) whose RenderableId name — asset name, node
index, then `_` and the node name or `unk` — matches no existing registry
entry's id name (the existing entry's `parent_asset` is not consulted); the
new entries are appended with consecutive fresh indices, carry the pass's
asset as parent, and all pre-existing entries keep their index, id and
parent. -/
theorem c7_amended_insertion_all_nodes_by_name (parse : Bytes → Except RErr Gltf)
    (dec : Decoder) (asset : Asset) (reg : Arena) (gltf : Gltf)
    (hparse : get_gltf parse asset = Except.ok gltf) :
    ((update_renderables_from_asset parse dec asset reg).1).items.map
        (fun p => (p.1, p.2.id, p.2.parent_asset)) =
      reg.items.map (fun p => (p.1, p.2.id, p.2.parent_asset)) ++
        (idxFrom reg.next (newIdsOf asset gltf reg)).map (fun q => (q.1, q.2, asset.name)) := by
  unfold update_renderables_from_asset
  rw [hparse]
  cases hua : updateAll gltf asset dec
      (insertNewRenderables reg ((newIdsOf asset gltf reg).map
        (fun n => Renderable.new asset n))).items BufferCache.empty with
  | mk items' rc =>
      obtain ⟨cfin, res⟩ := rc
      have hmeta := updateAll_meta gltf asset dec
        (insertNewRenderables reg ((newIdsOf asset gltf reg).map
          (fun n => Renderable.new asset n))).items BufferCache.empty
      rw [hua] at hmeta
      have hins := insertNewRenderables_items
        ((newIdsOf asset gltf reg).map (fun n => Renderable.new asset n)) reg
      have hfinal : items'.map (fun p => (p.1, p.2.id, p.2.parent_asset)) =
          reg.items.map (fun p => (p.1, p.2.id, p.2.parent_asset)) ++
            (idxFrom reg.next (newIdsOf asset gltf reg)).map
              (fun q => (q.1, q.2, asset.name)) := by
        rw [hmeta, hins.1, List.map_append, idxFrom_map]
        simp [Renderable.new]
      cases res with
      | error e => simpa [hua] using hfinal
      | ok u => simpa [hua] using hfinal

/-- C7 witness: the amended theorem applied to the meshless-node document
`g7` over the empty registry — its single (meshless) node receives entry
index 0. -/
theorem c7_amended_insertion_all_nodes_by_name_witness :
    ((update_renderables_from_asset parse7 decNever asset4 arena0).1).items.map
        (fun p => (p.1, p.2.id, p.2.parent_asset)) =
      arena0.items.map (fun p => (p.1, p.2.id, p.2.parent_asset)) ++
        (idxFrom arena0.next (newIdsOf asset4 g7 arena0)).map
          (fun q => (q.1, q.2, asset4.name)) :=
  c7_amended_insertion_all_nodes_by_name parse7 decNever asset4 arena0 g7 rfl

/-! Monotonicity: small facts about the accessor map and the resolution
phases on already-populated fields. -/

/-- Reading back the key just inserted. -/
theorem lookupA_insertA_self (l : List (Attribute × Accessor)) (k : Attribute) (v : Accessor) :
    lookupA (insertA l k v) k = some v := by
  induction l with
  | nil => simp [insertA, lookupA]
  | cons p rest ih =>
      obtain ⟨k', v'⟩ := p
      by_cases hk : k' = k
      · subst hk; simp [insertA, lookupA]
      · simp only [insertA, beq_iff_eq, if_neg hk]
        simp only [lookupA, List.find?]
        rw [show (k' == k) = false from beq_false_of_ne hk]
        exact ih

/-- Reading another key after an insertion. -/
theorem lookupA_insertA_ne (l : List (Attribute × Accessor)) (k k' : Attribute) (v : Accessor)
    (hne : k' ≠ k) : lookupA (insertA l k v) k' = lookupA l k' := by
  have hkk' : (k == k') = false := beq_false_of_ne (Ne.symm hne)
  induction l with
  | nil => simp [insertA, lookupA, hkk']
  | cons p rest ih =>
      obtain ⟨k0, v0⟩ := p
      by_cases hk : k0 = k
      · subst hk
        simp [insertA, lookupA, hkk', List.find?]
      · simp only [insertA, beq_iff_eq, if_neg hk]
        simp only [lookupA, List.find?] at ih ⊢
        cases hk0 : (k0 == k') <;> simp [hk0, ih]

/-- A populated accessor buffer short-circuits resolution. -/
theorem resolveAccBuffer_some (gltf : Gltf) (asset : Asset) (c : BufferCache) (acc : Accessor)
    (hb : acc.buffer.isSome = true) :
    resolveAccBuffer gltf asset c acc = (acc, c, Except.ok ()) := by
  cases hbuf : acc.buffer with
  | none => rw [hbuf] at hb; simp at hb
  | some b => simp [resolveAccBuffer, hbuf]

/-- An existing index accessor short-circuits creation. -/
theorem indicesInit_some (prim : GPrimitive) (node_index : Nat) (asset : Asset) (i : Accessor) :
    indicesInit prim node_index asset (some i) = (some i, Except.ok ()) := rfl

/-- A populated index buffer short-circuits population. -/
theorem indicesPopulate_some (asset : Asset) (c : BufferCache) (prim : GPrimitive)
    (i : Accessor) (hb : i.buffer.isSome = true) :
    indicesPopulate asset c prim (some i) = (some i, Except.ok ()) := by
  simp [indicesPopulate, hb]

/-- An existing base-color texture short-circuits creation. -/
theorem baseColorInit_some (prim : GPrimitive) (asset : Asset) (t : Texture) :
    baseColorInit prim asset (some t) = (some t, Except.ok ()) := rfl

/-- An `Available` base color is returned unchanged by resolution. -/
theorem baseColorResolve_available (gltf : Gltf) (asset : Asset) (c : BufferCache)
    (dec : Decoder) (id_name : String) (t : Texture) (img : ImageBuffer)
    (hst : t.status = TextureStatus.Available img) :
    baseColorResolve gltf asset c dec id_name (some t) = (some t, c, Except.ok ()) := by
  obtain ⟨st, ws, wt⟩ := t
  simp only at hst
  subst hst
  rfl

/-- An `Unused` base color is returned unchanged by resolution. -/
theorem baseColorResolve_unused (gltf : Gltf) (asset : Asset) (c : BufferCache)
    (dec : Decoder) (id_name : String) (t : Texture)
    (hst : t.status = TextureStatus.Unused) :
    baseColorResolve gltf asset c dec id_name (some t) = (some t, c, Except.ok ()) := by
  obtain ⟨st, ws, wt⟩ := t
  simp only at hst
  subst hst
  rfl

/-- One attribute-loop iteration preserves every already-populated map
entry. -/
theorem updateAttrsStep_preserves (gltf : Gltf) (asset : Asset)
    (accs : List (Attribute × Accessor)) (c : BufferCache) (sem : GSemantic) (gacc : GAccessor)
    (attr : Attribute) (acc : Accessor)
    (h : lookupA accs attr = some acc) (hb : acc.buffer.isSome = true) :
    lookupA ((updateAttrsStep gltf asset accs c sem gacc).1) attr = some acc := by
  simp only [updateAttrsStep]
  by_cases hs : (Attribute.ofSemantic sem).is_supported = true
  · simp only [hs, if_true]
    cases hnew : Accessor.new (Attribute.ofSemantic sem) gacc asset.name with
    | error e => exact h
    | ok newAcc =>
        by_cases heq : attr = Attribute.ofSemantic sem
        · subst heq
          simp only [h, resolveAccBuffer_some gltf asset c acc hb]
          exact lookupA_insertA_self accs (Attribute.ofSemantic sem) acc
        · simp only []
          rw [lookupA_insertA_ne _ _ _ _ heq]
          exact h
  · simp only [hs, if_false]
    exact h

/-- The whole attribute loop preserves every already-populated map entry,
whether or not it runs to completion. -/
theorem updateAttrs_preserves (gltf : Gltf) (asset : Asset) :
    ∀ (l : List (GSemantic × GAccessor)) (accs : List (Attribute × Accessor)) (c : BufferCache)
      (attr : Attribute) (acc : Accessor),
      lookupA accs attr = some acc → acc.buffer.isSome = true →
      lookupA ((updateAttrs gltf asset l accs c).1) attr = some acc := by
  intro l
  induction l with
  | nil => intro accs c attr acc h _; exact h
  | cons p rest ih =>
      intro accs c attr acc h hb
      obtain ⟨sem, gacc⟩ := p
      unfold updateAttrs
      cases hstep : updateAttrsStep gltf asset accs c sem gacc with
      | mk accs' rc =>
          obtain ⟨c', res⟩ := rc
          have hpres : lookupA accs' attr = some acc := by
            have := updateAttrsStep_preserves gltf asset accs c sem gacc attr acc h hb
            rw [hstep] at this
            exact this
          cases res with
          | error e => exact hpres
          | ok u => exact ih accs' c' attr acc hpres hb

/-- The monotonicity relation between two renderable states: every populated
attribute buffer, populated index accessor and available base-color texture of
the first is present, unchanged, in the second. -/
def FieldsPreserved (r r' : Renderable) : Prop :=
  (∀ (attr : Attribute) (acc : Accessor), lookupA r.accessors attr = some acc →
      acc.buffer.isSome = true → lookupA r'.accessors attr = some acc) ∧
  (∀ i : Accessor, r.indices = some i → i.buffer.isSome = true → r'.indices = some i) ∧
  (∀ (t : Texture) (img : ImageBuffer), r.base_color = some t →
      t.status = TextureStatus.Available img → r'.base_color = some t)

/-- Preservation is reflexive. -/
theorem fieldsPreserved_refl (r : Renderable) : FieldsPreserved r r :=
  ⟨fun _ _ h _ => h, fun _ h _ => h, fun _ _ h _ => h⟩

/-- Preservation composes. -/
theorem fieldsPreserved_trans {r r' r'' : Renderable} (h1 : FieldsPreserved r r')
    (h2 : FieldsPreserved r' r'') : FieldsPreserved r r'' :=
  ⟨fun attr acc h hb => h2.1 attr acc (h1.1 attr acc h hb) hb,
   fun i h hb => h2.2.1 i (h1.2.1 i h hb) hb,
   fun t img h hs => h2.2.2 t img (h1.2.2 t img h hs) hs⟩

/-- One update preserves every populated field of the renderable (through
every early-exit path as well). -/
theorem update_fields_preserved (r : Renderable) (gltf : Gltf) (asset : Asset)
    (c : BufferCache) (dec : Decoder) :
    FieldsPreserved r ((r.update gltf asset c dec).1) := by
  simp only [Renderable.update]
  cases hn : gltf.nodes.get? r.id.node_index with
  | none => exact fieldsPreserved_refl r
  | some node =>
  dsimp only
  cases hm : node.mesh with
  | none => exact fieldsPreserved_refl r
  | some mesh =>
  dsimp only
  cases hp : mesh.primitives.head? with
  | none => exact fieldsPreserved_refl r
  | some prim =>
  dsimp only
  cases ha : updateAttrs gltf asset prim.attributes r.accessors c with
  | mk accs rc1 =>
  obtain ⟨c1, res1⟩ := rc1
  dsimp only
  have hattr : ∀ (attr : Attribute) (acc : Accessor), lookupA r.accessors attr = some acc →
      acc.buffer.isSome = true → lookupA accs attr = some acc := by
    intro attr acc h hb
    have h2 := updateAttrs_preserves gltf asset prim.attributes r.accessors c attr acc h hb
    rw [ha] at h2
    exact h2
  cases res1 with
  | error e => exact ⟨hattr, fun _ h _ => h, fun _ _ h _ => h⟩
  | ok u =>
  dsimp only
  cases hi1 : indicesInit prim r.id.node_index asset r.indices with
  | mk ind1 res2 =>
  dsimp only
  have hind1 : ∀ i : Accessor, r.indices = some i → ind1 = some i ∧ res2 = Except.ok () := by
    intro i hi
    rw [hi, indicesInit_some] at hi1
    exact ⟨(Prod.mk.injEq _ _ _ _).mp hi1.symm |>.1, (Prod.mk.injEq _ _ _ _).mp hi1.symm |>.2⟩
  cases res2 with
  | error e =>
      refine ⟨hattr, ?_, fun _ _ h _ => h⟩
      intro i hi hb
      exact (hind1 i hi).1
  | ok u2 =>
  dsimp only
  cases hi2 : indicesPopulate asset c1 prim ind1 with
  | mk ind2 res3 =>
  dsimp only
  have hind2 : ∀ i : Accessor, r.indices = some i → i.buffer.isSome = true →
      ind2 = some i ∧ res3 = Except.ok () := by
    intro i hi hb
    rw [(hind1 i hi).1, indicesPopulate_some asset c1 prim i hb] at hi2
    exact ⟨(Prod.mk.injEq _ _ _ _).mp hi2.symm |>.1, (Prod.mk.injEq _ _ _ _).mp hi2.symm |>.2⟩
  cases res3 with
  | error e =>
      refine ⟨hattr, ?_, fun _ _ h _ => h⟩
      intro i hi hb
      exact (hind2 i hi hb).1
  | ok u3 =>
  dsimp only
  cases hb1 : baseColorInit prim asset r.base_color with
  | mk bc1 res4 =>
  dsimp only
  have hbc1 : ∀ t : Texture, r.base_color = some t → bc1 = some t ∧ res4 = Except.ok () := by
    intro t ht
    rw [ht, baseColorInit_some] at hb1
    exact ⟨(Prod.mk.injEq _ _ _ _).mp hb1.symm |>.1, (Prod.mk.injEq _ _ _ _).mp hb1.symm |>.2⟩
  cases res4 with
  | error e =>
      refine ⟨hattr, ?_, ?_⟩
      · intro i hi hb
        exact (hind2 i hi hb).1
      · intro t img ht hs
        exact (hbc1 t ht).1
  | ok u4 =>
  dsimp only
  cases hb2 : baseColorResolve gltf asset c1 dec r.id.name bc1 with
  | mk bc2 rc2 =>
  obtain ⟨c2, res5⟩ := rc2
  dsimp only
  refine ⟨hattr, ?_, ?_⟩
  · intro i hi hb
    exact (hind2 i hi hb).1
  · intro t img ht hs
    have h1 := (hbc1 t ht).1
    rw [h1, baseColorResolve_available gltf asset c1 dec r.id.name t img hs] at hb2
    exact ((Prod.mk.injEq _ _ _ _).mp hb2.symm |>.1)

/-- The update loop preserves every populated field of every entry, whether or
not it runs to completion. -/
theorem updateAll_fields_preserved (gltf : Gltf) (asset : Asset) (dec : Decoder) :
    ∀ (items : List (Nat × Renderable)) (c : BufferCache) (i : Nat) (r : Renderable),
      (i, r) ∈ items →
      ∃ r', (i, r') ∈ (updateAll gltf asset dec items c).1 ∧ FieldsPreserved r r' := by
  intro items
  induction items with
  | nil => intro c i r hmem; exact absurd hmem (List.not_mem_nil _)
  | cons p rest ih =>
      intro c i r hmem
      obtain ⟨j, s⟩ := p
      unfold updateAll
      rcases List.mem_cons.mp hmem with hhead | htail
      · obtain ⟨hi, hr⟩ := Prod.mk.injEq _ _ _ _ ▸ hhead
        subst hi
        subst hr
        by_cases hm : (r.parent_asset == asset.name) = true
        · rw [if_pos hm]
          cases hu : r.update gltf asset c dec with
          | mk r' rc =>
              obtain ⟨c', res⟩ := rc
              have hpres : FieldsPreserved r r' := by
                have h2 := update_fields_preserved r gltf asset c dec
                rw [hu] at h2
                exact h2
              cases res with
              | error e => exact ⟨r', List.mem_cons_self _ _, hpres⟩
              | ok u => exact ⟨r', List.mem_cons_self _ _, hpres⟩
        · rw [if_neg hm]
          exact ⟨r, List.mem_cons_self _ _, fieldsPreserved_refl r⟩
      · by_cases hm : (s.parent_asset == asset.name) = true
        · rw [if_pos hm]
          cases hu : s.update gltf asset c dec with
          | mk s' rc =>
              obtain ⟨c', res⟩ := rc
              cases res with
              | error e => exact ⟨r, List.mem_cons_of_mem _ htail, fieldsPreserved_refl r⟩
              | ok u =>
                  obtain ⟨r', hmem', hpres⟩ := ih c' i r htail
                  exact ⟨r', List.mem_cons_of_mem _ hmem', hpres⟩
        · rw [if_neg hm]
          obtain ⟨r', hmem', hpres⟩ := ih c i r htail
          exact ⟨r', List.mem_cons_of_mem _ hmem', hpres⟩

/-- One resolution pass preserves every populated field of every registry
entry. -/
theorem pass_fields_preserved (parse : Bytes → Except RErr Gltf) (dec : Decoder)
    (asset : Asset) (reg : Arena) (i : Nat) (r : Renderable) (hmem : (i, r) ∈ reg.items) :
    ∃ r', (i, r') ∈ ((update_renderables_from_asset parse dec asset reg).1).items ∧
      FieldsPreserved r r' := by
  unfold update_renderables_from_asset
  cases hg : get_gltf parse asset with
  | error e => exact ⟨r, hmem, fieldsPreserved_refl r⟩
  | ok gltf =>
      dsimp only
      have hmem1 : (i, r) ∈ (insertNewRenderables reg ((newIdsOf asset gltf reg).map
          (fun n => Renderable.new asset n))).items := by
        rw [(insertNewRenderables_items _ reg).1]
        exact List.mem_append_left _ hmem
      cases hua : updateAll gltf asset dec (insertNewRenderables reg
          ((newIdsOf asset gltf reg).map (fun n => Renderable.new asset n))).items
          BufferCache.empty with
      | mk items' rc =>
          obtain ⟨cf, res⟩ := rc
          have hall := updateAll_fields_preserved gltf asset dec _ BufferCache.empty i r hmem1
          rw [hua] at hall
          obtain ⟨r', hmem', hpres⟩ := hall
          cases res with
          | error e => exact ⟨r', hmem', hpres⟩
          | ok u => exact ⟨r', hmem', hpres⟩

/-- C2: over any sequence of resolution passes, every Renderable field that is
populated — an attribute accessor with its buffer, the index accessor with its
buffer, the base-color texture once `Available` — remains populated, with the
same contents, after every later pass; no pass reverts a resolved field. -/
theorem c2_monotone_resolution (parse : Bytes → Except RErr Gltf) (dec : Decoder)
    (assets : List Asset) (reg : Arena) (i : Nat) (r : Renderable)
    (hmem : (i, r) ∈ reg.items) :
    ∃ r', (i, r') ∈ (runPasses parse dec assets reg).items ∧ FieldsPreserved r r' := by
  induction assets generalizing reg r with
  | nil => exact ⟨r, hmem, fieldsPreserved_refl r⟩
  | cons a rest ih =>
      obtain ⟨r1, hmem1, hp1⟩ := pass_fields_preserved parse dec a reg i r hmem
      obtain ⟨r2, hmem2, hp2⟩ := ih ((update_renderables_from_asset parse dec a reg).1) r1 hmem1
      exact ⟨r2, hmem2, fieldsPreserved_trans hp1 hp2⟩

/-- C2 witness: the monotonicity theorem applied to the registry `arena5`,
whose renderable has a populated index buffer, across one pass over
`asset5`. -/
theorem c2_monotone_resolution_witness :
    ∃ r', (0, r') ∈ (runPasses parse5 dec5 [asset5] arena5).items ∧ FieldsPreserved r5 r' :=
  c2_monotone_resolution parse5 dec5 [asset5] arena5 0 r5 (List.mem_singleton.mpr rfl)

/-! Idempotence after a successful pass: the second pass re-resolves nothing,
because every unresolved field failed deterministically (`NotYet`) and every
resolved field short-circuits. -/

/-- The empty cache never hits on binaries. -/
theorem get_bin_empty (id : BufferId) : BufferCache.empty.get_bin id = none := rfl

/-- The empty cache never hits on images. -/
theorem get_image_empty (id : BufferId) : BufferCache.empty.get_image id = none := rfl

/-- Re-inserting the value a key already holds leaves the map unchanged. -/
theorem insertA_self (l : List (Attribute × Accessor)) (k : Attribute) (v : Accessor)
    (h : lookupA l k = some v) : insertA l k v = l := by
  induction l with
  | nil => simp [lookupA] at h
  | cons p rest ih =>
      obtain ⟨k0, v0⟩ := p
      by_cases hk : k0 = k
      · subst hk
        simp [lookupA, List.find?] at h
        simp [insertA, h]
      · simp only [lookupA, List.find?] at h
        rw [show (k0 == k) = false from beq_false_of_ne hk] at h
        simp only [insertA, beq_iff_eq, if_neg hk]
        rw [ih h]

/-- A stable characterization of an accessor entry after a successful
attribute loop: its buffer is populated, or its lookup fails `NotYet` (a
cache-independent fact, taken at the empty cache) on an incomplete asset. -/
def AttrOk (gltf : Gltf) (asset : Asset) (a : Accessor) : Prop :=
  a.buffer.isSome = true ∨
    (a.buffer = none ∧
      (BufferCache.empty.lookup_bin_from_asset a.buffer_id gltf asset).1 =
        Except.error (RErr.cmc CmcError.NotYet) ∧
      asset.is_complete = false)

/-- Resolution of an `AttrOk` entry against the empty cache is a no-op. -/
theorem resolveAccBuffer_attrOk_empty (gltf : Gltf) (asset : Asset) (a : Accessor)
    (h : AttrOk gltf asset a) :
    resolveAccBuffer gltf asset BufferCache.empty a = (a, BufferCache.empty, Except.ok ()) := by
  rcases h with hb | ⟨hb, hlook, hcmp⟩
  · exact resolveAccBuffer_some gltf asset BufferCache.empty a hb
  · have hpair : BufferCache.empty.lookup_bin_from_asset a.buffer_id gltf asset =
        (Except.error (RErr.cmc CmcError.NotYet), BufferCache.empty) := by
      rw [Prod.ext_iff]
      exact ⟨hlook, lookup_bin_err_cache hlook⟩
    unfold resolveAccBuffer
    rw [hb, get_bin_empty, hpair, hcmp]
    rfl

/-- The result of a successful buffer resolution satisfies `AttrOk`. -/
theorem resolveAccBuffer_ok_attrOk (gltf : Gltf) (asset : Asset) (c : BufferCache)
    (acc a1 : Accessor) (c1 : BufferCache)
    (hout : resolveAccBuffer gltf asset c acc = (a1, c1, Except.ok ())) :
    AttrOk gltf asset a1 := by
  revert hout
  unfold resolveAccBuffer
  cases hbuf : acc.buffer with
  | some b =>
      intro hout
      have h1 : (acc, c, (Except.ok () : Except RErr Unit)) = (a1, c1, Except.ok ()) := hout
      rw [Prod.mk.injEq, Prod.mk.injEq] at h1
      left
      rw [← h1.1]
      simp [hbuf]
  | none =>
      cases hget : c.get_bin acc.buffer_id with
      | some b =>
          intro hout
          have h1 : ({ acc with buffer := some b }, c, (Except.ok () : Except RErr Unit)) =
              (a1, c1, Except.ok ()) := hout
          rw [Prod.mk.injEq, Prod.mk.injEq] at h1
          left
          rw [← h1.1]
          rfl
      | none =>
          cases hlook : c.lookup_bin_from_asset acc.buffer_id gltf asset with
          | mk lv lc =>
              cases lv with
              | ok val =>
                  intro hout
                  have h1 : ({ acc with buffer := some val }, lc,
                      (Except.ok () : Except RErr Unit)) = (a1, c1, Except.ok ()) := hout
                  rw [Prod.mk.injEq, Prod.mk.injEq] at h1
                  left
                  rw [← h1.1]
                  rfl
              | error e =>
                  cases e with
                  | panic msg =>
                      intro hout
                      have h1 : (acc, lc, (Except.error (RErr.panic msg) :
                          Except RErr Unit)) = (a1, c1, Except.ok ()) := hout
                      rw [Prod.mk.injEq, Prod.mk.injEq] at h1
                      exact absurd h1.2.2 (by simp)
                  | cmc ce =>
                      cases ce with
                      | NotYet =>
                          cases hcmp : asset.is_complete with
                          | true =>
                              intro hout
                              have h1 : (acc, lc, (Except.error (RErr.cmc (CmcError.missing_val
                                  ("asset is complete but missing component"))) :
                                  Except RErr Unit)) = (a1, c1, Except.ok ()) := hout
                              rw [Prod.mk.injEq, Prod.mk.injEq] at h1
                              exact absurd h1.2.2 (by simp)
                          | false =>
                              intro hout
                              have h1 : (acc, lc, (Except.ok () : Except RErr Unit)) =
                                  (a1, c1, Except.ok ()) := hout
                              rw [Prod.mk.injEq, Prod.mk.injEq] at h1
                              right
                              rw [← h1.1]
                              refine ⟨hbuf, ?_, hcmp⟩
                              have hv := lookup_bin_fst_indep BufferCache.empty c
                                acc.buffer_id gltf asset
                              rw [hv, hlook]
                      | MissingVal m =>
                          intro hout
                          have h1 : (acc, lc, (Except.error (RErr.cmc (CmcError.MissingVal m)) :
                              Except RErr Unit)) = (a1, c1, Except.ok ()) := hout
                          rw [Prod.mk.injEq, Prod.mk.injEq] at h1
                          exact absurd h1.2.2 (by simp)
                      | ConversionFail m =>
                          intro hout
                          have h1 : (acc, lc,
                              (Except.error (RErr.cmc (CmcError.ConversionFail m)) :
                              Except RErr Unit)) = (a1, c1, Except.ok ()) := hout
                          rw [Prod.mk.injEq, Prod.mk.injEq] at h1
                          exact absurd h1.2.2 (by simp)
                      | Gltf m =>
                          intro hout
                          have h1 : (acc, lc, (Except.error (RErr.cmc (CmcError.Gltf m)) :
                              Except RErr Unit)) = (a1, c1, Except.ok ()) := hout
                          rw [Prod.mk.injEq, Prod.mk.injEq] at h1
                          exact absurd h1.2.2 (by simp)
                      | Image m =>
                          intro hout
                          have h1 : (acc, lc, (Except.error (RErr.cmc (CmcError.Image m)) :
                              Except RErr Unit)) = (a1, c1, Except.ok ()) := hout
                          rw [Prod.mk.injEq, Prod.mk.injEq] at h1
                          exact absurd h1.2.2 (by simp)

/-- Outcome of one successful attribute-loop iteration: the maps agree on
every other key, the accessor constructor succeeded, and (for a supported
semantic) the written entry satisfies `AttrOk`. -/
theorem updateAttrsStep_ok (gltf : Gltf) (asset : Asset)
    (accs : List (Attribute × Accessor)) (c : BufferCache) (sem : GSemantic) (gacc : GAccessor)
    (accs2 : List (Attribute × Accessor)) (c2 : BufferCache)
    (hstep : updateAttrsStep gltf asset accs c sem gacc = (accs2, c2, Except.ok ())) :
    (∀ k : Attribute, k ≠ Attribute.ofSemantic sem → lookupA accs2 k = lookupA accs k) ∧
    ((Attribute.ofSemantic sem).is_supported = true →
      (∃ newAcc, Accessor.new (Attribute.ofSemantic sem) gacc asset.name = Except.ok newAcc) ∧
      ∃ a2, lookupA accs2 (Attribute.ofSemantic sem) = some a2 ∧ AttrOk gltf asset a2) ∧
    ((Attribute.ofSemantic sem).is_supported = false → accs2 = accs) := by
  revert hstep
  simp only [updateAttrsStep]
  by_cases hs : (Attribute.ofSemantic sem).is_supported = true
  · simp only [hs, if_true]
    cases hnew : Accessor.new (Attribute.ofSemantic sem) gacc asset.name with
    | error e => intro hstep; exact absurd hstep (by simp)
    | ok newAcc =>
        intro hstep
        cases hres2 : resolveAccBuffer gltf asset c
            (match lookupA accs (Attribute.ofSemantic sem) with
              | some existing => existing
              | none => newAcc) with
        | mk a1 rc =>
            obtain ⟨c1, res1⟩ := rc
            have hstepA : (insertA accs (Attribute.ofSemantic sem)
                (resolveAccBuffer gltf asset c
                  (match lookupA accs (Attribute.ofSemantic sem) with
                    | some existing => existing
                    | none => newAcc)).1,
                (resolveAccBuffer gltf asset c
                  (match lookupA accs (Attribute.ofSemantic sem) with
                    | some existing => existing
                    | none => newAcc)).2.1,
                (resolveAccBuffer gltf asset c
                  (match lookupA accs (Attribute.ofSemantic sem) with
                    | some existing => existing
                    | none => newAcc)).2.2) = (accs2, c2, Except.ok ()) := hstep
            rw [hres2] at hstepA
            have hstepB : (insertA accs (Attribute.ofSemantic sem) a1, c1, res1) =
                (accs2, c2, Except.ok ()) := hstepA
            rw [Prod.mk.injEq, Prod.mk.injEq] at hstepB
            obtain ⟨hmaps, hc, hok1⟩ := hstepB
            refine ⟨?_, ?_, ?_⟩
            · intro k hk
              rw [← hmaps]
              exact lookupA_insertA_ne accs (Attribute.ofSemantic sem) k _ hk
            · intro _
              refine ⟨⟨newAcc, rfl⟩, a1, ?_, ?_⟩
              · rw [← hmaps]
                exact lookupA_insertA_self accs (Attribute.ofSemantic sem) _
              · refine resolveAccBuffer_ok_attrOk gltf asset c
                  (match lookupA accs (Attribute.ofSemantic sem) with
                    | some existing => existing
                    | none => newAcc) a1 c1 ?_
                rw [hres2, hok1]
            · intro hfalse
              exact absurd hfalse (by simp)
  · simp only [hs, if_false]
    intro hstep
    have hstepA : ((accs, c, Except.ok ()) :
        List (Attribute × Accessor) × BufferCache × Except RErr Unit) =
        (accs2, c2, Except.ok ()) := hstep
    rw [Prod.mk.injEq, Prod.mk.injEq] at hstepA
    rw [← hstepA.1]
    exact ⟨fun k _ => rfl, fun hsup => absurd hsup Bool.false_ne_true, fun _ => rfl⟩

/-- On the empty cache, an iteration whose key already holds an `AttrOk` entry
(and whose accessor constructor succeeds) is a no-op. -/
theorem updateAttrsStep_idem (gltf : Gltf) (asset : Asset)
    (accs : List (Attribute × Accessor)) (sem : GSemantic) (gacc : GAccessor)
    (h : (Attribute.ofSemantic sem).is_supported = true →
      (∃ newAcc, Accessor.new (Attribute.ofSemantic sem) gacc asset.name = Except.ok newAcc) ∧
      ∃ a2, lookupA accs (Attribute.ofSemantic sem) = some a2 ∧ AttrOk gltf asset a2) :
    updateAttrsStep gltf asset accs BufferCache.empty sem gacc =
      (accs, BufferCache.empty, Except.ok ()) := by
  simp only [updateAttrsStep]
  by_cases hs : (Attribute.ofSemantic sem).is_supported = true
  · simp only [hs, if_true]
    obtain ⟨⟨newAcc, hnew⟩, a2, hl, hok⟩ := h hs
    rw [hnew]
    dsimp only
    rw [hl]
    dsimp only
    rw [resolveAccBuffer_attrOk_empty gltf asset a2 hok]
    dsimp only
    rw [insertA_self accs (Attribute.ofSemantic sem) a2 hl]
  · simp only [hs, if_false]
    rfl

/-- A successful attribute loop carries every `AttrOk` entry forward (possibly
rewritten, but still `AttrOk`). -/
theorem updateAttrs_ok_keeps (gltf : Gltf) (asset : Asset) :
    ∀ (l : List (GSemantic × GAccessor)) (accs : List (Attribute × Accessor)) (c : BufferCache)
      (accs' : List (Attribute × Accessor)) (c1 : BufferCache),
      updateAttrs gltf asset l accs c = (accs', c1, Except.ok ()) →
      ∀ (k : Attribute) (a0 : Accessor), lookupA accs k = some a0 → AttrOk gltf asset a0 →
      ∃ a2, lookupA accs' k = some a2 ∧ AttrOk gltf asset a2 := by
  intro l
  induction l with
  | nil =>
      intro accs c accs' c1 h k a0 hl hok
      have h1 : ((accs, c, Except.ok ()) :
          List (Attribute × Accessor) × BufferCache × Except RErr Unit) =
          (accs', c1, Except.ok ()) := h
      rw [Prod.mk.injEq, Prod.mk.injEq] at h1
      rw [← h1.1]
      exact ⟨a0, hl, hok⟩
  | cons p rest ih =>
      intro accs c accs' c1 h k a0 hl hok
      obtain ⟨sem, gacc⟩ := p
      unfold updateAttrs at h
      cases hstep : updateAttrsStep gltf asset accs c sem gacc with
      | mk accs1 rc =>
          obtain ⟨c2, res⟩ := rc
          rw [hstep] at h
          cases res with
          | error e =>
              have h1 : ((accs1, c2, Except.error e) :
                  List (Attribute × Accessor) × BufferCache × Except RErr Unit) =
                  (accs', c1, Except.ok ()) := h
              rw [Prod.mk.injEq, Prod.mk.injEq] at h1
              exact absurd h1.2.2 (by simp)
          | ok u =>
              cases u
              have h' : updateAttrs gltf asset rest accs1 c2 = (accs', c1, Except.ok ()) := h
              obtain ⟨hothers, hown, hunch⟩ :=
                updateAttrsStep_ok gltf asset accs c sem gacc accs1 c2 hstep
              by_cases hk : k = Attribute.ofSemantic sem
              · by_cases hsup : (Attribute.ofSemantic sem).is_supported = true
                · obtain ⟨_, a2, hl2, hok2⟩ := hown hsup
                  rw [hk]
                  exact ih accs1 c2 accs' c1 h' (Attribute.ofSemantic sem) a2 hl2 hok2
                · have hx : (Attribute.ofSemantic sem).is_supported = false := by
                    revert hsup
                    cases (Attribute.ofSemantic sem).is_supported <;> simp
                  rw [hunch hx] at h'
                  exact ih accs c2 accs' c1 h' k a0 hl hok
              · have hsame := hothers k hk
                rw [← hsame] at hl
                exact ih accs1 c2 accs' c1 h' k a0 hl hok

/-- A successful attribute loop run again over its own output, with the empty
cache, is a no-op. -/
theorem updateAttrs_ok_idem (gltf : Gltf) (asset : Asset) :
    ∀ (l : List (GSemantic × GAccessor)) (accs : List (Attribute × Accessor)) (c : BufferCache)
      (accs' : List (Attribute × Accessor)) (c1 : BufferCache),
      updateAttrs gltf asset l accs c = (accs', c1, Except.ok ()) →
      updateAttrs gltf asset l accs' BufferCache.empty =
        (accs', BufferCache.empty, Except.ok ()) := by
  intro l
  induction l with
  | nil =>
      intro accs c accs' c1 h
      rfl
  | cons p rest ih =>
      intro accs c accs' c1 h
      obtain ⟨sem, gacc⟩ := p
      unfold updateAttrs at h
      cases hstep : updateAttrsStep gltf asset accs c sem gacc with
      | mk accs1 rc =>
          obtain ⟨c2, res⟩ := rc
          rw [hstep] at h
          cases res with
          | error e =>
              have h1 : ((accs1, c2, Except.error e) :
                  List (Attribute × Accessor) × BufferCache × Except RErr Unit) =
                  (accs', c1, Except.ok ()) := h
              rw [Prod.mk.injEq, Prod.mk.injEq] at h1
              exact absurd h1.2.2 (by simp)
          | ok u =>
              cases u
              have h' : updateAttrs gltf asset rest accs1 c2 = (accs', c1, Except.ok ()) := h
              obtain ⟨hothers, hown, _⟩ :=
                updateAttrsStep_ok gltf asset accs c sem gacc accs1 c2 hstep
              have hstep2 : updateAttrsStep gltf asset accs' BufferCache.empty sem gacc =
                  (accs', BufferCache.empty, Except.ok ()) := by
                apply updateAttrsStep_idem
                intro hsup
                obtain ⟨hnew, a2, hl2, hok2⟩ := hown hsup
                obtain ⟨a3, hl3, hok3⟩ :=
                  updateAttrs_ok_keeps gltf asset rest accs1 c2 accs' c1 h'
                    (Attribute.ofSemantic sem) a2 hl2 hok2
                exact ⟨hnew, a3, hl3, hok3⟩
              unfold updateAttrs
              rw [hstep2]
              show updateAttrs gltf asset rest accs' BufferCache.empty =
                (accs', BufferCache.empty, Except.ok ())
              exact ih accs1 c2 accs' c1 h'

/-- A successful index-accessor creation always yields an accessor. -/
theorem indicesInit_ok_some (prim : GPrimitive) (node_index : Nat) (asset : Asset)
    (ind ind1 : Option Accessor)
    (h : indicesInit prim node_index asset ind = (ind1, Except.ok ())) :
    ∃ i1, ind1 = some i1 := by
  cases ind with
  | some i =>
      rw [indicesInit_some] at h
      exact ⟨i, ((Prod.mk.injEq _ _ _ _).mp h).1.symm⟩
  | none =>
      cases hpi : prim.indices with
      | none => simp [indicesInit, hpi] at h
      | some accr =>
          cases hnew : Accessor.new Attribute.Indices accr asset.name with
          | error e => simp [indicesInit, hpi, hnew] at h
          | ok a =>
              simp only [indicesInit, hpi, hnew] at h
              exact ⟨_, ((Prod.mk.injEq _ _ _ _).mp h).1.symm⟩

/-- The stable shape of the index field after a successful population step:
populated, or unpopulated with the primitive's index accessor and view both
present (so the step reproduces it verbatim on a later empty-cache pass). -/
def IndOk (prim : GPrimitive) (i : Accessor) : Prop :=
  i.buffer.isSome = true ∨
    (i.buffer = none ∧ ∃ accr view, prim.indices = some accr ∧ accr.view = some view)

/-- A successful index population yields an accessor satisfying `IndOk`. -/
theorem indicesPopulate_ok_indOk (asset : Asset) (c : BufferCache) (prim : GPrimitive)
    (i1 : Accessor) (ind2 : Option Accessor)
    (h : indicesPopulate asset c prim (some i1) = (ind2, Except.ok ())) :
    ∃ i2, ind2 = some i2 ∧ IndOk prim i2 := by
  cases hb : i1.buffer.isSome with
  | true =>
      rw [indicesPopulate_some asset c prim i1 hb] at h
      exact ⟨i1, ((Prod.mk.injEq _ _ _ _).mp h).1.symm, Or.inl hb⟩
  | false =>
      have hnb : ¬ (i1.buffer.isSome = true) := by simp [hb]
      cases hpi : prim.indices with
      | none => simp [indicesPopulate, hb, hpi] at h
      | some accr =>
          cases hview : accr.view with
          | none => simp [indicesPopulate, hb, hpi, hview] at h
          | some view =>
              cases hget : c.get_bin
                  (build_buffer_id (BufferSource.Binary view.buffer.source) asset.name) with
              | some bin =>
                  simp only [indicesPopulate] at h
                  rw [if_neg hnb] at h
                  simp only [hpi, hview, hget] at h
                  by_cases hrange : view.offset + view.length ≤ bin.data.length
                  · rw [if_pos hrange] at h
                    exact ⟨_, ((Prod.mk.injEq _ _ _ _).mp h).1.symm, Or.inl rfl⟩
                  · rw [if_neg hrange] at h
                    exact absurd ((Prod.mk.injEq _ _ _ _).mp h).2 (by simp)
              | none =>
                  simp only [indicesPopulate] at h
                  rw [if_neg hnb] at h
                  simp only [hpi, hview, hget] at h
                  exact ⟨_, ((Prod.mk.injEq _ _ _ _).mp h).1.symm,
                    Or.inr ⟨rfl, accr, view, hpi, hview⟩⟩

/-- On the empty cache, index population of an `IndOk` accessor is a no-op. -/
theorem indicesPopulate_indOk_empty (asset : Asset) (prim : GPrimitive) (i : Accessor)
    (h : IndOk prim i) :
    indicesPopulate asset BufferCache.empty prim (some i) = (some i, Except.ok ()) := by
  rcases h with hb | ⟨hb, accr, view, hpi, hview⟩
  · exact indicesPopulate_some asset BufferCache.empty prim i hb
  · obtain ⟨atr, buf, bid, dt, st, cnt, ni, nz, off⟩ := i
    simp only at hb
    subst hb
    simp only [indicesPopulate, hpi, hview, get_bin_empty, Option.isSome_none]
    rfl

/-- The stable shape of the base-color field after a successful resolution
step: available, unused, or pending with a cache-independent `NotYet` on an
incomplete asset. -/
def TexOk (gltf : Gltf) (asset : Asset) (dec : Decoder) (t : Texture) : Prop :=
  (∃ img, t.status = TextureStatus.Available img) ∨
  t.status = TextureStatus.Unused ∨
  (∃ target, t.status = TextureStatus.Pending target ∧
    (BufferCache.empty.lookup_img_from_asset target gltf asset dec).1 =
      Except.error (RErr.cmc CmcError.NotYet) ∧
    asset.is_complete = false)

/-- A successful base-color creation always yields a texture record. -/
theorem baseColorInit_ok_some (prim : GPrimitive) (asset : Asset) (bc bc1 : Option Texture)
    (h : baseColorInit prim asset bc = (bc1, Except.ok ())) : ∃ t1, bc1 = some t1 := by
  cases bc with
  | some t =>
      rw [baseColorInit_some] at h
      exact ⟨t, ((Prod.mk.injEq _ _ _ _).mp h).1.symm⟩
  | none =>
      cases hpt : prim.material.base_color_texture with
      | none => simp [baseColorInit, hpt] at h
      | some texture =>
          simp only [baseColorInit, hpt] at h
          exact ⟨_, ((Prod.mk.injEq _ _ _ _).mp h).1.symm⟩

/-- A successful base-color resolution yields a texture satisfying `TexOk`. -/
theorem baseColorResolve_ok_texOk (gltf : Gltf) (asset : Asset) (c : BufferCache)
    (dec : Decoder) (id_name : String) (t1 : Texture) (bc2 : Option Texture)
    (c2 : BufferCache)
    (h : baseColorResolve gltf asset c dec id_name (some t1) = (bc2, c2, Except.ok ())) :
    ∃ t2, bc2 = some t2 ∧ TexOk gltf asset dec t2 := by
  obtain ⟨st, ws, wt⟩ := t1
  cases st with
  | Available buf =>
      simp only [baseColorResolve] at h
      exact ⟨_, ((Prod.mk.injEq _ _ _ _).mp h).1.symm, Or.inl ⟨buf, rfl⟩⟩
  | Unused =>
      simp only [baseColorResolve] at h
      exact ⟨_, ((Prod.mk.injEq _ _ _ _).mp h).1.symm, Or.inr (Or.inl rfl)⟩
  | Pending target =>
      cases hget : c.get_image target with
      | some img =>
          simp only [baseColorResolve, hget] at h
          exact ⟨_, ((Prod.mk.injEq _ _ _ _).mp h).1.symm, Or.inl ⟨img, rfl⟩⟩
      | none =>
          cases hlook : c.lookup_img_from_asset target gltf asset dec with
          | mk lv lc =>
              cases lv with
              | ok img =>
                  simp only [baseColorResolve, hget, hlook] at h
                  exact ⟨_, ((Prod.mk.injEq _ _ _ _).mp h).1.symm, Or.inl ⟨img, rfl⟩⟩
              | error e =>
                  cases e with
                  | panic msg => simp [baseColorResolve, hget, hlook] at h
                  | cmc ce =>
                      cases ce with
                      | NotYet =>
                          cases hcmp : asset.is_complete with
                          | true => simp [baseColorResolve, hget, hlook, hcmp] at h
                          | false =>
                              have hfst : (c.lookup_img_from_asset target gltf asset dec).1 =
                                  Except.error (RErr.cmc CmcError.NotYet) := by rw [hlook]
                              simp only [baseColorResolve, hget, hlook] at h
                              rw [if_neg (show ¬ (asset.is_complete = true) by
                                simp [hcmp])] at h
                              exact ⟨_, ((Prod.mk.injEq _ _ _ _).mp h).1.symm,
                                Or.inr (Or.inr ⟨target, rfl,
                                  lookup_img_notyet_indep hfst BufferCache.empty, hcmp⟩)⟩
                      | MissingVal m => simp [baseColorResolve, hget, hlook] at h
                      | ConversionFail m => simp [baseColorResolve, hget, hlook] at h
                      | Gltf m => simp [baseColorResolve, hget, hlook] at h
                      | Image m => simp [baseColorResolve, hget, hlook] at h

/-- On the empty cache, base-color resolution of a `TexOk` texture is a
no-op. -/
theorem baseColorResolve_texOk_empty (gltf : Gltf) (asset : Asset) (dec : Decoder)
    (id_name : String) (t : Texture) (h : TexOk gltf asset dec t) :
    baseColorResolve gltf asset BufferCache.empty dec id_name (some t) =
      (some t, BufferCache.empty, Except.ok ()) := by
  rcases h with ⟨img, hst⟩ | hst | ⟨target, hst, hlook, hcmp⟩
  · exact baseColorResolve_available gltf asset BufferCache.empty dec id_name t img hst
  · exact baseColorResolve_unused gltf asset BufferCache.empty dec id_name t hst
  · have hpair : BufferCache.empty.lookup_img_from_asset target gltf asset dec =
        (Except.error (RErr.cmc CmcError.NotYet), BufferCache.empty) := by
      rw [Prod.ext_iff]
      exact ⟨hlook, lookup_img_err_cache hlook⟩
    obtain ⟨st, ws, wt⟩ := t
    simp only at hst
    subst hst
    simp only [baseColorResolve, get_image_empty, hpair]
    rw [if_neg (show ¬ (asset.is_complete = true) by simp [hcmp])]

/-- A renderable update that succeeds is idempotent: re-running the update on
its output, against the same document and asset but a fresh empty cache,
returns the output unchanged (with the cache still empty). -/
theorem update_ok_idem (r : Renderable) (gltf : Gltf) (asset : Asset) (c : BufferCache)
    (dec : Decoder) (r2 : Renderable) (c2 : BufferCache)
    (h : r.update gltf asset c dec = (r2, c2, Except.ok ())) :
    r2.update gltf asset BufferCache.empty dec = (r2, BufferCache.empty, Except.ok ()) := by
  simp only [Renderable.update, List.get?_eq_getElem?] at h
  cases hn : gltf.nodes[r.id.node_index]? with
  | none => simp [hn] at h
  | some node =>
  simp only [hn] at h
  cases hm : node.mesh with
  | none => simp [hm] at h
  | some mesh =>
  simp only [hm] at h
  cases hp : mesh.primitives.head? with
  | none => simp [hp] at h
  | some prim =>
  simp only [hp] at h
  cases ha : updateAttrs gltf asset prim.attributes r.accessors c with
  | mk accs rc1 =>
  obtain ⟨c1, res1⟩ := rc1
  simp only [ha] at h
  cases res1 with
  | error e => simp at h
  | ok u =>
  cases u
  dsimp only at h
  cases hi1 : indicesInit prim r.id.node_index asset r.indices with
  | mk ind1 res2 =>
  simp only [hi1] at h
  cases res2 with
  | error e => simp at h
  | ok u2 =>
  cases u2
  dsimp only at h
  cases hi2 : indicesPopulate asset c1 prim ind1 with
  | mk ind2 res3 =>
  simp only [hi2] at h
  cases res3 with
  | error e => simp at h
  | ok u3 =>
  cases u3
  dsimp only at h
  cases hb1 : baseColorInit prim asset r.base_color with
  | mk bc1 res4 =>
  simp only [hb1] at h
  cases res4 with
  | error e => simp at h
  | ok u4 =>
  cases u4
  dsimp only at h
  cases hb2 : baseColorResolve gltf asset c1 dec r.id.name bc1 with
  | mk bc2 rc2 =>
  obtain ⟨c1x, res5⟩ := rc2
  simp only [hb2] at h
  have h1 := (Prod.mk.injEq _ _ _ _).mp h
  have h2 := (Prod.mk.injEq _ _ _ _).mp h1.2
  have hres5 : res5 = Except.ok () := h2.2
  subst hres5
  obtain ⟨i1, hind1⟩ := indicesInit_ok_some prim r.id.node_index asset r.indices ind1 hi1
  subst hind1
  obtain ⟨i2, hind2, hindok⟩ := indicesPopulate_ok_indOk asset c1 prim i1 ind2 hi2
  subst hind2
  obtain ⟨t1, hbc1⟩ := baseColorInit_ok_some prim asset r.base_color bc1 hb1
  subst hbc1
  obtain ⟨t2, hbc2, htex⟩ :=
    baseColorResolve_ok_texOk gltf asset c1 dec r.id.name t1 bc2 c1x hb2
  subst hbc2
  have hattr2 := updateAttrs_ok_idem gltf asset prim.attributes r.accessors c accs c1 ha
  have hr2 : r2 =
      { r with accessors := accs, indices := some i2, base_color := some t2 } := h1.1.symm
  subst hr2
  simp only [Renderable.update, List.get?_eq_getElem?, hn, hm, hp, hattr2, indicesInit_some,
    indicesPopulate_indOk_empty asset prim i2 hindok, baseColorInit_some,
    baseColorResolve_texOk_empty gltf asset dec r.id.name t2 htex]

/-- An update loop that succeeds is idempotent: re-running it on its own
output list with a fresh empty cache returns that list unchanged. -/
theorem updateAll_ok_idem (gltf : Gltf) (asset : Asset) (dec : Decoder) :
    ∀ (items : List (Nat × Renderable)) (c : BufferCache)
      (items2 : List (Nat × Renderable)) (c1 : BufferCache),
      updateAll gltf asset dec items c = (items2, c1, Except.ok ()) →
      updateAll gltf asset dec items2 BufferCache.empty =
        (items2, BufferCache.empty, Except.ok ()) := by
  intro items
  induction items with
  | nil =>
      intro c items2 c1 h
      have h1 : items2 = [] := (((Prod.mk.injEq _ _ _ _).mp h).1).symm
      subst h1
      rfl
  | cons p rest ih =>
      intro c items2 c1 h
      obtain ⟨i, r⟩ := p
      by_cases hm : (r.parent_asset == asset.name) = true
      · simp only [updateAll] at h
        rw [if_pos hm] at h
        cases hu : r.update gltf asset c dec with
        | mk r' rc =>
        obtain ⟨c', res⟩ := rc
        rw [hu] at h
        cases res with
        | error e => simp at h
        | ok u =>
        cases u
        dsimp only at h
        cases hrest : updateAll gltf asset dec rest c' with
        | mk rest' rc2 =>
        obtain ⟨c'', res2⟩ := rc2
        simp only [hrest] at h
        have h1 := (Prod.mk.injEq _ _ _ _).mp h
        have h2 := (Prod.mk.injEq _ _ _ _).mp h1.2
        have hres2 : res2 = Except.ok () := h2.2
        subst hres2
        have hitems : items2 = (i, r') :: rest' := h1.1.symm
        subst hitems
        have hih := ih c' rest' c'' hrest
        have hp3 : r'.parent_asset = r.parent_asset := by
          have hp2 := update_preserves_parent r gltf asset c dec
          rw [hu] at hp2
          exact hp2
        have hpar : (r'.parent_asset == asset.name) = true := by
          rw [hp3]
          exact hm
        simp only [updateAll]
        rw [if_pos hpar, update_ok_idem r gltf asset c dec r' c' hu]
        dsimp only
        rw [hih]
      · simp only [updateAll] at h
        rw [if_neg hm] at h
        cases hrest : updateAll gltf asset dec rest c with
        | mk rest' rc2 =>
        obtain ⟨c', res2⟩ := rc2
        simp only [hrest] at h
        have h1 := (Prod.mk.injEq _ _ _ _).mp h
        have h2 := (Prod.mk.injEq _ _ _ _).mp h1.2
        have hres2 : res2 = Except.ok () := h2.2
        subst hres2
        have hitems : items2 = (i, r) :: rest' := h1.1.symm
        subst hitems
        have hih := ih c rest' c' hrest
        simp only [updateAll]
        rw [if_neg hm, hih]

/-- Every element of a list appears, under some index, in its indexing. -/
theorem mem_idxFrom {α : Type} (x : α) :
    ∀ (l : List α) (n : Nat), x ∈ l → ∃ k, (k, x) ∈ idxFrom n l := by
  intro l
  induction l with
  | nil => intro n h; exact absurd h (List.not_mem_nil _)
  | cons y ys ih =>
      intro n h
      rcases List.mem_cons.mp h with h1 | h2
      · subst h1
        exact ⟨n, List.mem_cons_self _ _⟩
      · obtain ⟨k, hk⟩ := ih (n + 1) h2
        exact ⟨k, List.mem_cons_of_mem _ hk⟩

/-- Every entry of the update loop's input has an output entry with the same
identity. -/
theorem updateAll_mem_id (gltf : Gltf) (asset : Asset) (dec : Decoder)
    (items : List (Nat × Renderable)) (c : BufferCache) (p : Nat × Renderable)
    (hmem : p ∈ items) :
    ∃ q ∈ (updateAll gltf asset dec items c).1, q.2.id = p.2.id := by
  have hmap := updateAll_meta gltf asset dec items c
  have hx : (p.1, p.2.id, p.2.parent_asset) ∈
      items.map (fun p => (p.1, p.2.id, p.2.parent_asset)) :=
    List.mem_map_of_mem _ hmem
  rw [← hmap] at hx
  obtain ⟨q, hq, he⟩ := List.mem_map.mp hx
  have he2 := (Prod.mk.injEq _ _ _ _).mp he
  exact ⟨q, hq, ((Prod.mk.injEq _ _ _ _).mp he2.2).1⟩

/-- After a pass's insert-then-update phases, every node id of the document has
a name match in the registry, so the next pass has nothing to insert. -/
theorem newIdsOf_after_pass (asset : Asset) (gltf : Gltf) (dec : Decoder) (reg : Arena)
    (nx : Nat) (items2 : List (Nat × Renderable)) (cx : BufferCache) (res : Except RErr Unit)
    (hupd : updateAll gltf asset dec
        (insertNewRenderables reg ((newIdsOf asset gltf reg).map
          (fun n => Renderable.new asset n))).items BufferCache.empty = (items2, cx, res)) :
    newIdsOf asset gltf { next := nx, items := items2 } = [] := by
  have hfst : (updateAll gltf asset dec
      (insertNewRenderables reg ((newIdsOf asset gltf reg).map
        (fun n => Renderable.new asset n))).items BufferCache.empty).1 = items2 := by
    rw [hupd]
  unfold newIdsOf
  rw [List.filter_eq_nil_iff]
  intro n hn
  have hmatch : ∃ q, q ∈ items2 ∧ (q.2.id.name == n.name) = true := by
    by_cases hfound : (reg.items.find? (fun r => r.2.id.name == n.name)).isNone = true
    · have hnew : n ∈ newIdsOf asset gltf reg := List.mem_filter.mpr ⟨hn, hfound⟩
      have hmemr : Renderable.new asset n ∈ (newIdsOf asset gltf reg).map
          (fun n => Renderable.new asset n) := List.mem_map_of_mem _ hnew
      obtain ⟨k, hk⟩ := mem_idxFrom (Renderable.new asset n) _ reg.next hmemr
      have harena1 : (k, Renderable.new asset n) ∈ (insertNewRenderables reg
          ((newIdsOf asset gltf reg).map (fun n => Renderable.new asset n))).items := by
        rw [(insertNewRenderables_items _ reg).1]
        exact List.mem_append_right _ hk
      obtain ⟨q, hq, hid⟩ := updateAll_mem_id gltf asset dec _ BufferCache.empty _ harena1
      rw [hfst] at hq
      refine ⟨q, hq, ?_⟩
      rw [hid]
      simp [Renderable.new]
    · have hsome : (reg.items.find? (fun r => r.2.id.name == n.name)).isSome = true := by
        cases hv : reg.items.find? (fun r => r.2.id.name == n.name) with
        | none => rw [hv] at hfound; exact absurd rfl hfound
        | some q => rfl
      obtain ⟨x, hfind⟩ := Option.isSome_iff_exists.mp hsome
      have hx : x ∈ reg.items ∧ (x.2.id.name == n.name) = true := by
        refine ⟨List.mem_of_find?_eq_some hfind, ?_⟩
        have hb := List.find?_some hfind
        exact hb
      have harena1 : x ∈ (insertNewRenderables reg
          ((newIdsOf asset gltf reg).map (fun n => Renderable.new asset n))).items := by
        rw [(insertNewRenderables_items _ reg).1]
        exact List.mem_append_left _ hx.1
      obtain ⟨q, hq, hid⟩ := updateAll_mem_id gltf asset dec _ BufferCache.empty _ harena1
      rw [hfst] at hq
      refine ⟨q, hq, ?_⟩
      rw [hid]
      exact hx.2
  obtain ⟨q, hq, hname⟩ := hmatch
  have hsome2 : (items2.find? (fun r => r.2.id.name == n.name)).isSome = true :=
    List.find?_isSome.mpr ⟨q, hq, hname⟩
  intro hcontra
  have hcontra2 : items2.find? (fun r => r.2.id.name == n.name) = none :=
    Option.isNone_iff_eq_none.mp hcontra
  rw [hcontra2] at hsome2
  exact absurd hsome2 (by simp)

/-- C5 (amended): idempotence holds for successful passes — when one call of
`update_renderables_from_asset` on a registry returns a registry `reg2`
together with `Ok out`, running the pass again on `reg2`, with the asset's
files unchanged, returns `reg2` itself unchanged together with the same
`Ok out`.  (When the first pass returns an error the property fails, see the
counterexample.) -/
theorem c5_amended_successful_pass_idempotent (parse : Bytes → Except RErr Gltf)
    (decoder : Decoder) (asset : Asset) (reg reg2 : Arena) (out : List Nat)
    (h : update_renderables_from_asset parse decoder asset reg = (reg2, Except.ok out)) :
    update_renderables_from_asset parse decoder asset reg2 = (reg2, Except.ok out) := by
  simp only [update_renderables_from_asset] at h
  cases hg : get_gltf parse asset with
  | error e => simp [hg] at h
  | ok gltf =>
  simp only [hg] at h
  cases hupd : updateAll gltf asset decoder
      (insertNewRenderables reg ((newIdsOf asset gltf reg).map
        (fun n => Renderable.new asset n))).items BufferCache.empty with
  | mk items2 rcx =>
  obtain ⟨cx, res⟩ := rcx
  simp only [hupd] at h
  cases res with
  | error e => simp at h
  | ok u =>
  cases u
  dsimp only at h
  have h1 := (Prod.mk.injEq _ _ _ _).mp h
  have hout2 : (items2.filter (fun r => r.2.parent_asset == asset.name)).map Prod.fst
      = out := Except.ok.inj h1.2
  have hreg2 : reg2 = { next := (insertNewRenderables reg ((newIdsOf asset gltf reg).map
      (fun n => Renderable.new asset n))).next, items := items2 } := h1.1.symm
  subst hreg2
  have hnil := newIdsOf_after_pass asset gltf decoder reg
    (insertNewRenderables reg ((newIdsOf asset gltf reg).map
      (fun n => Renderable.new asset n))).next items2 cx (Except.ok ()) hupd
  have hupd2 := updateAll_ok_idem gltf asset decoder
    (insertNewRenderables reg ((newIdsOf asset gltf reg).map
      (fun n => Renderable.new asset n))).items BufferCache.empty items2 cx hupd
  simp only [update_renderables_from_asset, hg, hnil, List.map_nil]
  simp only [insertNewRenderables, List.foldl_nil, hupd2, hout2]

/-- C5 amended witness: the pass over asset `A` starting from the empty
registry succeeds with `Ok [0]`, so by the amended theorem a second pass
returns the same registry and the same result. -/
theorem c5_amended_successful_pass_idempotent_witness :
    update_renderables_from_asset parse5 dec5 asset5
        (update_renderables_from_asset parse5 dec5 asset5 arena0).1 =
      ((update_renderables_from_asset parse5 dec5 asset5 arena0).1, Except.ok [0]) :=
  c5_amended_successful_pass_idempotent parse5 dec5 asset5 arena0
    (update_renderables_from_asset parse5 dec5 asset5 arena0).1 [0] (by rfl)

end Cmc
